import Mathlib

/-!
# wikipush: a shallow embedding of `wikipush.go`

The program is one sequential `main` that talks to the operating system
(glob, directories, stdin, file reads, renames) and to a MediaWiki client
(`New`, `Login`, `Read`, `Edit`, `Logout`).  Every external operation is a
field of `World`: it receives the current world state and answers with a
result and the next state, so that every possible outcome of every call is
covered by some world.  `main` returns how the process ended, the ordered
list of the external calls and outputs it made (`Event`), and the final world
state.

Go strings are modelled by Lean strings (sequences of Unicode code points).
`path.Join dir file` is kept symbolic: a joined path is the pair of its two
elements.
-/

namespace Wikipush

/-! ## Data -/

/-- A Go `error` value; `io.EOF` is the one error the program tells apart. -/
inductive Error where
  | EOF
  | other (msg : String)
  deriving DecidableEq, Repr

/-- The result of a call returning `(value, error)`. -/
inductive Res (α : Type) where
  | ok (v : α)
  | fail (e : Error)
  deriving DecidableEq, Repr

/-- One revision of a page as returned by the client (`Body`). -/
structure Revision where
  Body : String
  deriving DecidableEq, Repr

/-- The page returned by `client.Read`: revisions, most recent first. -/
structure Page where
  Revisions : List Revision
  deriving DecidableEq, Repr

/-- The map handed to `client.Edit` (keys `title`, `summary`, `text`). -/
structure EditFields where
  title : String
  summary : String
  text : String
  deriving DecidableEq, Repr

/-- The command-line flags after `flag.Parse()`. `pause` is a `time.Duration`
(an int64 count of nanoseconds). -/
structure Flags where
  run : Bool
  extension : String
  url : String
  pause : Int
  summary : String
  deriving DecidableEq, Repr

/-- An argument of a `Printf`-style call. -/
inductive Arg where
  | int (n : Int)
  | str (s : String)
  | err (e : Error)
  | dur (d : Int)
  deriving DecidableEq, Repr

/-- The external calls and outputs of the program, each with the answer it got.
`Stdout` is `fmt.Print/Printf/Println` (format and arguments), `Log` is
`log.Printf`, `Fatal` is `log.Fatal/Fatalf` (which ends the process).
`Rename oldpath dir name` is `os.Rename(oldpath, path.Join(dir, name))`. -/
inductive Event where
  | Glob (pattern : String) (res : Res (List String))
  | Stdout (format : String) (args : List Arg)
  | Log (format : String) (args : List Arg)
  | Fatal (format : String) (args : List Arg)
  | MkdirAll (dir : String) (err : Option Error)
  | Open (name : String) (err : Option Error)
  | Readdirnames (name : String) (n : Nat) (names : List String) (err : Option Error)
  | Close (name : String)
  | New (url : String) (agent : String) (err : Option Error)
  | ReadLine (res : Res String)
  | Login (username : String) (password : String) (err : Option Error)
  | Logout
  | ReadFile (file : String) (res : Res String)
  | Sleep (d : Int)
  | Read (title : String) (res : Res Page)
  | Edit (fields : EditFields) (err : Option Error)
  | Rename (oldpath : String) (dir : String) (name : String) (err : Option Error)
  deriving DecidableEq, Repr

/-- The environment of the program: every external operation answers from the
current state and moves to a next state. -/
structure World (σ : Type) where
  Glob : String → σ → Res (List String) × σ
  MkdirAll : String → σ → Option Error × σ
  Open : String → σ → Option Error × σ
  Readdirnames : String → Nat → σ → (List String × Option Error) × σ
  Close : String → σ → σ
  New : String → String → σ → Option Error × σ
  ReadLine : σ → Res String × σ
  Login : String → String → σ → Option Error × σ
  Logout : σ → σ
  ReadFile : String → σ → Res String × σ
  Sleep : Int → σ → σ
  Read : String → σ → Res Page × σ
  Edit : EditFields → σ → Option Error × σ
  Rename : String → String → String → σ → Option Error × σ

/-- The five counters of `main`. Each is a Go `int`; none can exceed the number
of files, so no increment overflows. -/
structure Counters where
  doneCount : Nat
  dupeCount : Nat
  skipCount : Nat
  errCount : Nat
  moveErrCount : Nat
  deriving DecidableEq, Repr

/-- How the process ended: `main` returned, or `log.Fatal` called `os.Exit(1)`
(deferred calls do not run then). -/
inductive Exit where
  | returned
  | fatal
  deriving DecidableEq, Repr

/-- What a run of `main` leaves behind. -/
structure Result (σ : Type) where
  exit : Exit
  trace : List Event
  state : σ

/-! ## Library functions used by the program -/

/-- Go `unicode.IsSpace`. -/
def isSpace (c : Char) : Bool :=
  let n := c.toNat
  (9 ≤ n && n ≤ 13) || n == 0x20 || n == 0x85 || n == 0xA0 || n == 0x1680 ||
  (0x2000 ≤ n && n ≤ 0x200A) || n == 0x2028 || n == 0x2029 || n == 0x202F ||
  n == 0x205F || n == 0x3000

/-- Go `strings.TrimSpace`: drop leading and trailing white space. -/
def TrimSpace (s : String) : String :=
  ⟨((s.data.dropWhile isSpace).reverse.dropWhile isSpace).reverse⟩

/-- Go `strings.TrimSuffix`: drop `suffix` from the end of `s` when it is there. -/
def TrimSuffix (s suffix : String) : String :=
  if suffix.data.isSuffixOf s.data then ⟨s.data.take (s.data.length - suffix.data.length)⟩
  else s

/-- Go int64 multiplication of durations wraps around. -/
def wrapInt64 (x : Int) : Int :=
  (x + 2 ^ 63) % 2 ^ 64 - 2 ^ 63

/-! ## The program -/

def doneDir : String := "done"
def dupeDir : String := "dupes"
def skipDir : String := "skipped"

/-- `isDirEmpty` (lines 204-220): open the directory, read one name, close.
Returns `(isEmpty, err)`, the events and the next state. -/
def isDirEmpty {σ : Type} (W : World σ) (name : String) (s : σ) :
    (Bool × Option Error) × List Event × σ :=
  match W.Open name s with
  | (some e, s1) => ((false, some e), [Event.Open name (some e)], s1)
  | (none, s1) =>
    match W.Readdirnames name 1 s1 with
    | ((names, some Error.EOF), s2) =>
      ((true, none), [Event.Open name none, Event.Readdirnames name 1 names (some Error.EOF),
        Event.Close name], W.Close name s2)
    | ((names, err), s2) =>
      ((false, err), [Event.Open name none, Event.Readdirnames name 1 names err,
        Event.Close name], W.Close name s2)

/-- `checkDir` (lines 186-202). Returns `true` when it returns normally and
`false` when it ended the process with `log.Fatalf`. -/
def checkDir {σ : Type} (W : World σ) (dir description : String) (s : σ) :
    Bool × List Event × σ :=
  match W.MkdirAll dir s with
  | (some e, s1) =>
    (false, [Event.MkdirAll dir (some e),
      Event.Fatal "Error creating %s directory \"%s\": %s\n" [Arg.str description, Arg.str dir, Arg.err e]], s1)
  | (none, s1) =>
    match isDirEmpty W dir s1 with
    | ((_, some e), tr, s2) =>
      (false, Event.MkdirAll dir none :: tr ++
        [Event.Fatal "Error checking if %s directory \"%s\" is empty: %s\n"
          [Arg.str description, Arg.str dir, Arg.err e]], s2)
    | ((false, none), tr, s2) =>
      (false, Event.MkdirAll dir none :: tr ++
        [Event.Fatal "Error: Please make sure the %s directory \"%s\" is empty.\n"
          [Arg.str description, Arg.str dir]], s2)
    | ((true, none), tr, s2) => (true, Event.MkdirAll dir none :: tr, s2)

/-- The move at the end of a classified iteration (lines 136-141, 152-157,
164-169): rename the file into `dir`; a failure is logged and counted in
`moveErrCount` only. -/
def moveFile {σ : Type} (W : World σ) (file dir : String) (c : Counters) (s : σ) :
    Counters × List Event × σ :=
  match W.Rename file dir file s with
  | (some e, s1) =>
    ({ c with moveErrCount := c.moveErrCount + 1 },
      [Event.Rename file dir file (some e),
       Event.Log "Error moving file \"%s\" into \"%s\" directory, skipping...\n" [Arg.str file, Arg.str dir]], s1)
  | (none, s1) => (c, [Event.Rename file dir file none], s1)

/-- The body of the `for` loop (lines 97-172) for one file. -/
def loopBody {σ : Type} (W : World σ) (fl : Flags) (file : String) (c : Counters) (s : σ) :
    Counters × List Event × σ :=
  match W.ReadFile file s with
  | (Res.fail e, s1) =>
    ({ c with errCount := c.errCount + 1 },
      [Event.ReadFile file (Res.fail e),
       Event.Log "Error reading file %s, skipping...\n" [Arg.str file]], s1)
  | (Res.ok content, s1) =>
    let title := TrimSuffix file fl.extension
    let s2 := W.Sleep fl.pause s1
    match W.Read title s2 with
    | (Res.fail e, s3) =>
      ({ c with errCount := c.errCount + 1 },
        [Event.ReadFile file (Res.ok content), Event.Sleep fl.pause, Event.Read title (Res.fail e),
         Event.Log "Error fetching page %s, skipping...\n" [Arg.str title]], s3)
    | (Res.ok page, s3) =>
      let pre := [Event.ReadFile file (Res.ok content), Event.Sleep fl.pause,
        Event.Read title (Res.ok page)]
      match page.Revisions with
      | [] =>
        let edit : EditFields := { title := title, summary := fl.summary, text := content }
        match W.Edit edit s3 with
        | (some e, s4) =>
          ({ c with errCount := c.errCount + 1 },
            pre ++ [Event.Edit edit (some e),
              Event.Log "Error uploading page %s, skipping...\n" [Arg.str title]], s4)
        | (none, s4) =>
          match moveFile W file doneDir { c with doneCount := c.doneCount + 1 } s4 with
          | (c1, tr, s5) =>
            (c1, pre ++ [Event.Edit edit none,
              Event.Log "Successfully uploaded \"%s\", page didn\x27t exist before.\n" [Arg.str title]] ++ tr, s5)
      | rev :: rest =>
        let remote := rev.Body
        let nrev := Event.Log "Number of revisions: %d\n" [Arg.int ((rev :: rest).length : Nat)]
        if TrimSpace content = TrimSpace remote then
          match moveFile W file skipDir { c with skipCount := c.skipCount + 1 } s3 with
          | (c1, tr, s4) =>
            (c1, pre ++ [nrev,
              Event.Log "Skipped \"%s\", because it\x27s already in the wiki.\n" [Arg.str title]] ++ tr, s4)
        else
          match moveFile W file dupeDir { c with dupeCount := c.dupeCount + 1 } s3 with
          | (c1, tr, s4) =>
            (c1, pre ++ [nrev,
              Event.Log "Duplicate page \"%s\" with different content.\n" [Arg.str title]] ++ tr, s4)

/-- The `for _, file := range files` loop (lines 96-173). -/
def loop {σ : Type} (W : World σ) (fl : Flags) : List String → Counters → σ →
    Counters × List Event × σ
  | [], c, s => (c, [], s)
  | file :: rest, c, s =>
    match loopBody W fl file c s with
    | (c1, tr1, s1) =>
      match loop W fl rest c1 s1 with
      | (c2, tr2, s2) => (c2, tr1 ++ tr2, s2)

/-- The final summary (lines 175-183). -/
def summary (total : Nat) (c : Counters) : List Event :=
  [Event.Stdout "Done.\n" [],
   Event.Stdout "Out of %d files,\n" [Arg.int total],
   Event.Stdout "%d were uploaded successfully (see %s directory),\n" [Arg.int c.doneCount, Arg.str doneDir],
   Event.Stdout "%d were skipped because a page with different content already existed (see %s directory),\n"
     [Arg.int c.dupeCount, Arg.str dupeDir],
   Event.Stdout "%d were skipped because they were alreay in the wiki (see %s directory).\n"
     [Arg.int c.skipCount, Arg.str skipDir],
   Event.Stdout "%d couldn\x27t be processed because of errors.\n" [Arg.int c.errCount]] ++
  (if c.moveErrCount > 0 then
    [Event.Stdout "Additionally, %d files couldn\x27t be moved into the correct directory after they were processed.\n"
      [Arg.int c.moveErrCount]]
   else [])

/-- Lines 86-184: what `main` does once `Login` has succeeded. The deferred
`client.Logout()` runs when `main` returns. -/
def upload {σ : Type} (W : World σ) (fl : Flags) (files : List String) (s : σ) :
    List Event × σ :=
  let duration := wrapInt64 (fl.pause * (files.length : Int))
  match loop W fl files ⟨0, 0, 0, 0, 0⟩ s with
  | (c, tr, s1) =>
    ([Event.Stdout "%d files will be uploaded.\n" [Arg.int files.length],
      Event.Stdout "This will take at least %s with the current throttle setting.\n" [Arg.dur duration]]
      ++ tr ++ summary files.length c ++ [Event.Logout], W.Logout s1)

/-- Lines 58-84: create the client, prompt for the credentials, log in.
Returns `true` when the login succeeded, `false` when a `log.Fatalf` ended the
process. -/
def connect {σ : Type} (W : World σ) (fl : Flags) (s : σ) : Bool × List Event × σ :=
  match W.New fl.url "wikipush" s with
  | (some e, s1) =>
    (false, [Event.New fl.url "wikipush" (some e),
      Event.Fatal "Error connecting to MediaWiki: %s\n" [Arg.err e]], s1)
  | (none, s1) =>
    match W.ReadLine s1 with
    | (Res.fail e, s2) =>
      (false, [Event.New fl.url "wikipush" none, Event.Stdout "Enter username: " [],
        Event.ReadLine (Res.fail e), Event.Fatal "Error reading username: %s\n" [Arg.err e]], s2)
    | (Res.ok username, s2) =>
      match W.ReadLine s2 with
      | (Res.fail e, s3) =>
        (false, [Event.New fl.url "wikipush" none, Event.Stdout "Enter username: " [],
          Event.ReadLine (Res.ok username), Event.Stdout "Enter password (will be echoed): " [],
          Event.ReadLine (Res.fail e), Event.Fatal "Error reading password: %s\n" [Arg.err e]], s3)
      | (Res.ok password, s3) =>
        match W.Login username password s3 with
        | (some e, s4) =>
          (false, [Event.New fl.url "wikipush" none, Event.Stdout "Enter username: " [],
            Event.ReadLine (Res.ok username), Event.Stdout "Enter password (will be echoed): " [],
            Event.ReadLine (Res.ok password), Event.Login username password (some e),
            Event.Fatal "Error logging in (wrong username/password?): %s\n" [Arg.err e]], s4)
        | (none, s4) =>
          (true, [Event.New fl.url "wikipush" none, Event.Stdout "Enter username: " [],
            Event.ReadLine (Res.ok username), Event.Stdout "Enter password (will be echoed): " [],
            Event.ReadLine (Res.ok password), Event.Login username password none], s4)

/-- Lines 54-56: the three `checkDir` calls, in order; `false` as soon as one
of them ended the process. -/
def checkDirs {σ : Type} (W : World σ) (s : σ) : Bool × List Event × σ :=
  match checkDir W doneDir "done" s with
  | (false, t1, s1) => (false, t1, s1)
  | (true, t1, s1) =>
    match checkDir W dupeDir "duplicates" s1 with
    | (false, t2, s2) => (false, t1 ++ t2, s2)
    | (true, t2, s2) =>
      match checkDir W skipDir "skipped" s2 with
      | (ok, t3, s3) => (ok, t1 ++ t2 ++ t3, s3)

/-- The `main` function (lines 19-184). -/
def main {σ : Type} (W : World σ) (fl : Flags) (s : σ) : Result σ :=
  let pattern := "*" ++ fl.extension
  match W.Glob pattern s with
  | (Res.fail e, s1) =>
    ⟨Exit.fatal, [Event.Glob pattern (Res.fail e),
      Event.Fatal "Error reading filenames: %s" [Arg.err e]], s1⟩
  | (Res.ok files, s1) =>
    let g := Event.Glob pattern (Res.ok files)
    if !fl.run then
      ⟨Exit.returned, [g, Event.Stdout "%d files would be uploaded.\n" [Arg.int files.length]] ++
        (if files.length > 0 then
          [Event.Stdout "Start wikipush with \x60-run\x27 flag to perform the upload.\n" []]
         else []), s1⟩
    else if files.length = 0 then
      ⟨Exit.returned, [g, Event.Stdout "No files found.\n" []], s1⟩
    else if fl.url = "" then
      ⟨Exit.fatal, [g, Event.Fatal
        "Error: Missing URL: Please specify your MediaWiki API URL using the \x60-url\x27 flag." []], s1⟩
    else
      match checkDirs W s1 with
      | (false, t1, s2) => ⟨Exit.fatal, g :: t1, s2⟩
      | (true, t1, s2) =>
        match connect W fl s2 with
        | (false, t2, s3) => ⟨Exit.fatal, g :: t1 ++ t2, s3⟩
        | (true, t2, s3) =>
          match upload W fl files s3 with
          | (t3, s4) => ⟨Exit.returned, g :: t1 ++ t2 ++ t3, s4⟩

/-! ## Concrete worlds -/

/-- A table-driven world without state: which files the glob finds, what each
file read, page fetch, edit and move answers, and what each directory holds. -/
structure Script where
  files : Res (List String)
  contents : String → Res String
  pages : String → Res Page
  edits : String → Option Error
  moves : String → Option Error
  entries : String → List String
  login : Option Error

/-- The world that answers from a `Script`. -/
def scriptWorld (sc : Script) : World Unit where
  Glob := fun _ s => (sc.files, s)
  MkdirAll := fun _ s => (none, s)
  Open := fun _ s => (none, s)
  Readdirnames := fun d n s =>
    (if (sc.entries d).isEmpty then ([], some Error.EOF) else ((sc.entries d).take n, none), s)
  Close := fun _ s => s
  New := fun _ _ s => (none, s)
  ReadLine := fun s => (Res.ok "wiki", s)
  Login := fun _ _ s => (sc.login, s)
  Logout := fun s => s
  ReadFile := fun f s => (sc.contents f, s)
  Sleep := fun _ s => s
  Read := fun t s => (sc.pages t, s)
  Edit := fun e s => (sc.edits e.title, s)
  Rename := fun f _ _ s => (sc.moves f, s)

/-- The scenario of the specification: `A.txt` holds "hello" and page `A` does
not exist; `B.txt` holds "world" and page `B` has the latest body "world ". -/
def scenario : Script where
  files := Res.ok ["A.txt", "B.txt"]
  contents := fun f => if f = "A.txt" then Res.ok "hello" else Res.ok "world"
  pages := fun t => if t = "A" then Res.ok ⟨[]⟩ else Res.ok ⟨[⟨"world "⟩]⟩
  edits := fun _ => none
  moves := fun _ => none
  entries := fun _ => []
  login := none

/-- Flags of a real run: `-run -url http://wiki/w/api.php`. -/
def runFlags : Flags where
  run := true
  extension := ".txt"
  url := "http://wiki/w/api.php"
  pause := 500000000
  summary := "Bulk upload by wikipush"

/-! ## Reading a trace -/

/-- A call to the MediaWiki client. -/
def Event.isRemote : Event → Bool
  | Event.New _ _ _ => true
  | Event.Login _ _ _ => true
  | Event.Read _ _ => true
  | Event.Edit _ _ => true
  | Event.Logout => true
  | _ => false

/-- A credential prompt: one of the two prompt lines, or a read from stdin. -/
def Event.isPrompt : Event → Bool
  | Event.ReadLine _ => true
  | Event.Stdout f _ => f = "Enter username: " || f = "Enter password (will be echoed): "
  | _ => false

/-- A directory creation. -/
def Event.isMkdir : Event → Bool
  | Event.MkdirAll _ _ => true
  | _ => false

/-- A file read. -/
def Event.isReadFile : Event → Bool
  | Event.ReadFile _ _ => true
  | _ => false

/-- A file move, attempted. -/
def Event.isMove : Event → Bool
  | Event.Rename _ _ _ _ => true
  | _ => false

/-- A file move that failed. -/
def Event.isFailedMove : Event → Bool
  | Event.Rename _ _ _ (some _) => true
  | _ => false

/-- A move of the file `file`, attempted. -/
def Event.movesFile (file : String) : Event → Bool
  | Event.Rename old _ _ _ => old = file
  | _ => false

/-- A failed read, fetch or edit. -/
def Event.isFailedStep : Event → Bool
  | Event.ReadFile _ (Res.fail _) => true
  | Event.Read _ (Res.fail _) => true
  | Event.Edit _ (some _) => true
  | _ => false

/-- An `Edit` call. -/
def Event.isEdit : Event → Bool
  | Event.Edit _ _ => true
  | _ => false

/-- An `Edit` call that succeeded. -/
def Event.isEditOk : Event → Bool
  | Event.Edit _ none => true
  | _ => false

/-- A `Login` call that succeeded. -/
def Event.isLoginOk : Event → Bool
  | Event.Login _ _ none => true
  | _ => false

/-- A `log.Fatal`. -/
def Event.isFatal : Event → Bool
  | Event.Fatal _ _ => true
  | _ => false

/-- The events `checkDir` can produce. -/
def Event.isDirCheck : Event → Bool
  | Event.MkdirAll _ _ => true
  | Event.Open _ _ => true
  | Event.Readdirnames _ _ _ _ => true
  | Event.Close _ => true
  | Event.Fatal _ _ => true
  | _ => false

/-- The events one loop iteration can produce. -/
def Event.isLoopEvent : Event → Bool
  | Event.ReadFile _ _ => true
  | Event.Sleep _ => true
  | Event.Read _ _ => true
  | Event.Edit _ _ => true
  | Event.Log _ _ => true
  | Event.Rename _ _ _ _ => true
  | _ => false

/-- The moves attempted in a trace, in order: `(oldpath, dir, name)`. -/
def moves (tr : List Event) : List (String × String × String) :=
  tr.filterMap fun e =>
    match e with
    | Event.Rename old dir name _ => some (old, dir, name)
    | _ => none

/-- The directories into which `file` was moved successfully under its own name. -/
def landed (tr : List Event) (file : String) : List String :=
  tr.filterMap fun e =>
    match e with
    | Event.Rename old dir name none => if old = file ∧ name = file then some dir else none
    | _ => none

/-- The directories on which `MkdirAll` was called, in order. -/
def mkdirs (tr : List Event) : List String :=
  tr.filterMap fun e =>
    match e with
    | Event.MkdirAll dir _ => some dir
    | _ => none

/-- The three output directories, in the order `main` checks them. -/
def outputDirs : List String := [doneDir, dupeDir, skipDir]

/-- Exactly one of the four outcome counters went up, by one. -/
def IncrementsOne (c c1 : Counters) : Prop :=
  (c1.doneCount = c.doneCount + 1 ∧ c1.dupeCount = c.dupeCount ∧
    c1.skipCount = c.skipCount ∧ c1.errCount = c.errCount) ∨
  (c1.doneCount = c.doneCount ∧ c1.dupeCount = c.dupeCount + 1 ∧
    c1.skipCount = c.skipCount ∧ c1.errCount = c.errCount) ∨
  (c1.doneCount = c.doneCount ∧ c1.dupeCount = c.dupeCount ∧
    c1.skipCount = c.skipCount + 1 ∧ c1.errCount = c.errCount) ∨
  (c1.doneCount = c.doneCount ∧ c1.dupeCount = c.dupeCount ∧
    c1.skipCount = c.skipCount ∧ c1.errCount = c.errCount + 1)

/-- The four outcome counters of two counter records agree. -/
def SameOutcome (c c1 : Counters) : Prop :=
  c1.doneCount = c.doneCount ∧ c1.dupeCount = c.dupeCount ∧
  c1.skipCount = c.skipCount ∧ c1.errCount = c.errCount

/-- Every `Edit` in the trace comes right after a successful `Read` of the same
title that returned a page without revisions. -/
def EditsFollowEmptyRead (tr : List Event) : Prop :=
  ∀ pre post fields err, tr = pre ++ Event.Edit fields err :: post →
    ∃ pre1, pre = pre1 ++ [Event.Read fields.title (Res.ok ⟨[]⟩)]

/-! ## Further predicates and concrete worlds -/

/-- What one iteration does to the file: without a failed read, fetch or edit
exactly one move is attempted, into one of the output directories, and when
that move succeeds the file is there; with such a failure no move is attempted. -/
def FileFate (file : String) (tr : List Event) : Prop :=
  (tr.any Event.isFailedStep = false →
    ∃ d ∈ outputDirs, moves tr = [(file, d, file)] ∧
      (tr.any Event.isFailedMove = false → landed tr file = [d]) ∧
      (tr.any Event.isFailedMove = true → landed tr file = [])) ∧
  (tr.any Event.isFailedStep = true → moves tr = [])

/-- A `Readdirnames` that did not answer end-of-directory. -/
def Event.isEntryRead : Event → Bool
  | Event.Readdirnames _ _ _ err => decide (err ≠ some Error.EOF)
  | _ => false

/-- A `Readdirnames` answer other than end-of-directory ends the run: only the
`Close` of that directory and a fatal log follow it, and when the answer was an
entry (no error) the fatal log is the one naming the non-empty directory. -/
def EntryAborts (tr : List Event) : Prop :=
  ∀ pre post d n names err, tr = pre ++ Event.Readdirnames d n names err :: post →
    err ≠ some Error.EOF →
    ∃ f a, post = [Event.Close d, Event.Fatal f a] ∧
      (err = none → ∃ description,
        f = "Error: Please make sure the %s directory \"%s\" is empty.\n" ∧
        a = [Arg.str description, Arg.str d])

/-- The events `connect` can produce. -/
def Event.isConnect : Event → Bool
  | Event.New _ _ _ => true
  | Event.Stdout _ _ => true
  | Event.ReadLine _ => true
  | Event.Login _ _ _ => true
  | Event.Fatal _ _ => true
  | _ => false

/-- The events that can occur before the loop starts. -/
def Event.isSetup : Event → Bool
  | Event.Glob _ _ => true
  | Event.Stdout _ _ => true
  | Event.Fatal _ _ => true
  | Event.MkdirAll _ _ => true
  | Event.Open _ _ => true
  | Event.Readdirnames _ _ _ _ => true
  | Event.Close _ => true
  | Event.New _ _ _ => true
  | Event.ReadLine _ => true
  | Event.Login _ _ _ => true
  | _ => false

/-- The iteration classified the file as skipped: the skipped counter went up
by one, the other outcome counters did not move, and the one move attempted is
into `skipped/`. -/
def Skipped (file : String) (c c1 : Counters) (tr : List Event) : Prop :=
  c1.skipCount = c.skipCount + 1 ∧ c1.dupeCount = c.dupeCount ∧ c1.doneCount = c.doneCount ∧
  c1.errCount = c.errCount ∧ moves tr = [(file, skipDir, file)]

/-- The iteration classified the file as duplicate: the duplicate counter went
up by one, the other outcome counters did not move, and the one move attempted
is into `dupes/`. -/
def Duplicate (file : String) (c c1 : Counters) (tr : List Event) : Prop :=
  c1.dupeCount = c.dupeCount + 1 ∧ c1.skipCount = c.skipCount ∧ c1.doneCount = c.doneCount ∧
  c1.errCount = c.errCount ∧ moves tr = [(file, dupeDir, file)]

/-- The iteration uploaded the file: the uploaded counter went up by one, the
other outcome counters did not move, and the one move attempted is into `done/`. -/
def Uploaded (file : String) (c c1 : Counters) (tr : List Event) : Prop :=
  c1.doneCount = c.doneCount + 1 ∧ c1.dupeCount = c.dupeCount ∧ c1.skipCount = c.skipCount ∧
  c1.errCount = c.errCount ∧ moves tr = [(file, doneDir, file)]

/-- The iteration ended in an error: the error counter went up by one, no other
counter moved, and no move was attempted. -/
def Errored (c c1 : Counters) (tr : List Event) : Prop :=
  c1.errCount = c.errCount + 1 ∧ c1.doneCount = c.doneCount ∧ c1.dupeCount = c.dupeCount ∧
  c1.skipCount = c.skipCount ∧ c1.moveErrCount = c.moveErrCount ∧ moves tr = []

/-- A page `C` that exists with the body "old content", and a local `C.txt`
holding "new content". -/
def conflict : Script where
  files := Res.ok ["C.txt"]
  contents := fun _ => Res.ok "new content"
  pages := fun _ => Res.ok ⟨[⟨"old content"⟩]⟩
  edits := fun _ => none
  moves := fun _ => none
  entries := fun _ => []
  login := none

/-- The `Edit` calls of a trace, in order, each with its answer. -/
def edits (tr : List Event) : List (EditFields × Option Error) :=
  tr.filterMap fun e =>
    match e with
    | Event.Edit fields err => some (fields, err)
    | _ => none

/-- The scenario of the specification on a file system that refuses every move. -/
def stuckMove : Script where
  files := Res.ok ["A.txt", "B.txt"]
  contents := fun f => if f = "A.txt" then Res.ok "hello" else Res.ok "world"
  pages := fun t => if t = "A" then Res.ok ⟨[]⟩ else Res.ok ⟨[⟨"world "⟩]⟩
  edits := fun _ => none
  moves := fun _ => some (Error.other "rename: permission denied")
  entries := fun _ => []
  login := none

/-- Flags of a dry run: no `-run`. -/
def dryFlags : Flags where
  run := false
  extension := ".txt"
  url := "http://wiki/w/api.php"
  pause := 500000000
  summary := "Bulk upload by wikipush"

/-- Flags of a run without `-url`. -/
def noUrlFlags : Flags where
  run := true
  extension := ".txt"
  url := ""
  pause := 500000000
  summary := "Bulk upload by wikipush"

/-- A directory without any matching file. -/
def noFiles : Script where
  files := Res.ok []
  contents := fun _ => Res.fail (Error.other "no such file")
  pages := fun _ => Res.ok ⟨[]⟩
  edits := fun _ => none
  moves := fun _ => none
  entries := fun _ => []
  login := none

/-- The scenario of the specification with a file left over in `done/`. -/
def leftover : Script where
  files := Res.ok ["A.txt", "B.txt"]
  contents := fun f => if f = "A.txt" then Res.ok "hello" else Res.ok "world"
  pages := fun t => if t = "A" then Res.ok ⟨[]⟩ else Res.ok ⟨[⟨"world "⟩]⟩
  edits := fun _ => none
  moves := fun _ => none
  entries := fun d => if d = "done" then ["old.txt"] else []
  login := none

/-- The world `W` with its move operation replaced by `r`. -/
def withRename {σ : Type} (W : World σ) (r : String → String → String → σ → Option Error × σ) : World σ :=
  { W with Rename := r }

/-- The scenario of the specification with a wiki that refuses the login. -/
def badLogin : Script where
  files := Res.ok ["A.txt", "B.txt"]
  contents := fun f => if f = "A.txt" then Res.ok "hello" else Res.ok "world"
  pages := fun t => if t = "A" then Res.ok ⟨[]⟩ else Res.ok ⟨[⟨"world "⟩]⟩
  edits := fun _ => none
  moves := fun _ => none
  entries := fun _ => []
  login := some (Error.other "wrong password")

/-! ## Case analysis of the program -/

section Cases

variable {σ : Type}

/-- The two ways `moveFile` can go. -/
theorem moveFile_elim (W : World σ) (file dir : String) (c : Counters) (s : σ)
    (P : Counters × List Event × σ → Prop)
    (hFail : ∀ e s1, W.Rename file dir file s = (some e, s1) →
      P ({ c with moveErrCount := c.moveErrCount + 1 },
        [Event.Rename file dir file (some e),
         Event.Log "Error moving file \"%s\" into \"%s\" directory, skipping...\n"
           [Arg.str file, Arg.str dir]], s1))
    (hOk : ∀ s1, W.Rename file dir file s = (none, s1) →
      P (c, [Event.Rename file dir file none], s1)) :
    P (moveFile W file dir c s) := by
  unfold moveFile
  rcases h : W.Rename file dir file s with ⟨_ | e, s1⟩
  · exact hOk s1 h
  · exact hFail e s1 h

/-- The six ways one loop iteration can go. -/
theorem loopBody_elim (W : World σ) (fl : Flags) (file : String) (c : Counters) (s : σ)
    (P : Counters × List Event × σ → Prop)
    (hRead : ∀ e s1, W.ReadFile file s = (Res.fail e, s1) →
      P ({ c with errCount := c.errCount + 1 },
        [Event.ReadFile file (Res.fail e),
         Event.Log "Error reading file %s, skipping...\n" [Arg.str file]], s1))
    (hFetch : ∀ content s1 e s3, W.ReadFile file s = (Res.ok content, s1) →
      W.Read (TrimSuffix file fl.extension) (W.Sleep fl.pause s1) = (Res.fail e, s3) →
      P ({ c with errCount := c.errCount + 1 },
        [Event.ReadFile file (Res.ok content), Event.Sleep fl.pause,
         Event.Read (TrimSuffix file fl.extension) (Res.fail e),
         Event.Log "Error fetching page %s, skipping...\n" [Arg.str (TrimSuffix file fl.extension)]], s3))
    (hEdit : ∀ content s1 s3 e s4, W.ReadFile file s = (Res.ok content, s1) →
      W.Read (TrimSuffix file fl.extension) (W.Sleep fl.pause s1) = (Res.ok ⟨[]⟩, s3) →
      W.Edit ⟨TrimSuffix file fl.extension, fl.summary, content⟩ s3 = (some e, s4) →
      P ({ c with errCount := c.errCount + 1 },
        [Event.ReadFile file (Res.ok content), Event.Sleep fl.pause,
         Event.Read (TrimSuffix file fl.extension) (Res.ok ⟨[]⟩),
         Event.Edit ⟨TrimSuffix file fl.extension, fl.summary, content⟩ (some e),
         Event.Log "Error uploading page %s, skipping...\n" [Arg.str (TrimSuffix file fl.extension)]], s4))
    (hDone : ∀ content s1 s3 s4, W.ReadFile file s = (Res.ok content, s1) →
      W.Read (TrimSuffix file fl.extension) (W.Sleep fl.pause s1) = (Res.ok ⟨[]⟩, s3) →
      W.Edit ⟨TrimSuffix file fl.extension, fl.summary, content⟩ s3 = (none, s4) →
      P ((moveFile W file doneDir { c with doneCount := c.doneCount + 1 } s4).1,
        [Event.ReadFile file (Res.ok content), Event.Sleep fl.pause,
         Event.Read (TrimSuffix file fl.extension) (Res.ok ⟨[]⟩),
         Event.Edit ⟨TrimSuffix file fl.extension, fl.summary, content⟩ none,
         Event.Log "Successfully uploaded \"%s\", page didn\x27t exist before.\n"
           [Arg.str (TrimSuffix file fl.extension)]] ++
         (moveFile W file doneDir { c with doneCount := c.doneCount + 1 } s4).2.1,
        (moveFile W file doneDir { c with doneCount := c.doneCount + 1 } s4).2.2))
    (hSkip : ∀ content s1 rev rest s3, W.ReadFile file s = (Res.ok content, s1) →
      W.Read (TrimSuffix file fl.extension) (W.Sleep fl.pause s1) = (Res.ok ⟨rev :: rest⟩, s3) →
      TrimSpace content = TrimSpace rev.Body →
      P ((moveFile W file skipDir { c with skipCount := c.skipCount + 1 } s3).1,
        [Event.ReadFile file (Res.ok content), Event.Sleep fl.pause,
         Event.Read (TrimSuffix file fl.extension) (Res.ok ⟨rev :: rest⟩),
         Event.Log "Number of revisions: %d\n" [Arg.int ((rev :: rest).length : Nat)],
         Event.Log "Skipped \"%s\", because it\x27s already in the wiki.\n"
           [Arg.str (TrimSuffix file fl.extension)]] ++
         (moveFile W file skipDir { c with skipCount := c.skipCount + 1 } s3).2.1,
        (moveFile W file skipDir { c with skipCount := c.skipCount + 1 } s3).2.2))
    (hDupe : ∀ content s1 rev rest s3, W.ReadFile file s = (Res.ok content, s1) →
      W.Read (TrimSuffix file fl.extension) (W.Sleep fl.pause s1) = (Res.ok ⟨rev :: rest⟩, s3) →
      TrimSpace content ≠ TrimSpace rev.Body →
      P ((moveFile W file dupeDir { c with dupeCount := c.dupeCount + 1 } s3).1,
        [Event.ReadFile file (Res.ok content), Event.Sleep fl.pause,
         Event.Read (TrimSuffix file fl.extension) (Res.ok ⟨rev :: rest⟩),
         Event.Log "Number of revisions: %d\n" [Arg.int ((rev :: rest).length : Nat)],
         Event.Log "Duplicate page \"%s\" with different content.\n"
           [Arg.str (TrimSuffix file fl.extension)]] ++
         (moveFile W file dupeDir { c with dupeCount := c.dupeCount + 1 } s3).2.1,
        (moveFile W file dupeDir { c with dupeCount := c.dupeCount + 1 } s3).2.2)) :
    P (loopBody W fl file c s) := by
  unfold loopBody
  rcases h1 : W.ReadFile file s with ⟨content | e, s1⟩
  · simp only
    rcases h2 : W.Read (TrimSuffix file fl.extension) (W.Sleep fl.pause s1) with
      ⟨⟨_ | ⟨rev, rest⟩⟩ | e, s3⟩
    · simp only
      rcases h3 : W.Edit ⟨TrimSuffix file fl.extension, fl.summary, content⟩ s3 with ⟨_ | e, s4⟩
      · simpa using hDone content s1 s3 s4 h1 h2 h3
      · simpa using hEdit content s1 s3 e s4 h1 h2 h3
    · simp only
      by_cases ht : TrimSpace content = TrimSpace rev.Body
      · simpa [ht] using hSkip content s1 rev rest s3 h1 h2 ht
      · simpa [ht] using hDupe content s1 rev rest s3 h1 h2 ht
    · exact hFetch content s1 e s3 h1 h2
  · exact hRead e s1 h1

/-! ### Lists of events -/

theorem editsFollow_of_no_edit (tr : List Event) (h : ∀ e ∈ tr, e.isEdit = false) :
    EditsFollowEmptyRead tr := by
  intro pre post fields err htr
  have hmem : Event.Edit fields err ∈ tr := by simp [htr]
  have := h _ hmem
  simp [Event.isEdit] at this

theorem editsFollow_append (a b : List Event) (ha : EditsFollowEmptyRead a)
    (hb : EditsFollowEmptyRead b) : EditsFollowEmptyRead (a ++ b) := by
  intro pre post fields err htr
  rcases List.append_eq_append_iff.mp htr with ⟨a1, hpre, hb1⟩ | ⟨c1, ha1, hc1⟩
  · obtain ⟨p1, hp1⟩ := hb a1 post fields err hb1
    exact ⟨a ++ p1, by rw [hpre, hp1, List.append_assoc]⟩
  · cases c1 with
    | nil =>
      simp only [List.nil_append] at hc1
      obtain ⟨p1, hp1⟩ := hb [] post fields err (by simp [← hc1])
      simp at hp1
    | cons x c2 =>
      simp only [List.cons_append, List.cons.injEq] at hc1
      obtain ⟨hx, -⟩ := hc1
      subst hx
      exact ha pre c2 fields err ha1

theorem editsFollow_pair (fields : EditFields) (err : Option Error) :
    EditsFollowEmptyRead [Event.Read fields.title (Res.ok ⟨[]⟩), Event.Edit fields err] := by
  intro pre post f e htr
  rcases pre with _ | ⟨x, _ | ⟨y, pre⟩⟩
  · simp at htr
  · simp only [List.cons_append, List.nil_append, List.cons.injEq, Event.Edit.injEq] at htr
    obtain ⟨hx, ⟨hf, -⟩, -⟩ := htr
    exact ⟨[], by simp [← hx, hf]⟩
  · simp at htr

/-! ### One move -/

theorem moveFile_outcome (W : World σ) (file dir : String) (c : Counters) (s : σ) :
    SameOutcome c (moveFile W file dir c s).1 := by
  refine moveFile_elim W file dir c s (fun r => SameOutcome c r.1) ?_ ?_ <;>
    intros <;> simp [SameOutcome]

theorem moveFile_moveErr (W : World σ) (file dir : String) (c : Counters) (s : σ) :
    (moveFile W file dir c s).1.moveErrCount =
      c.moveErrCount + (moveFile W file dir c s).2.1.countP Event.isFailedMove := by
  refine moveFile_elim W file dir c s
    (fun r => r.1.moveErrCount = c.moveErrCount + r.2.1.countP Event.isFailedMove) ?_ ?_ <;>
    intros <;> simp [Event.isFailedMove, List.countP_cons]

theorem moveFile_moves (W : World σ) (file dir : String) (c : Counters) (s : σ) :
    moves (moveFile W file dir c s).2.1 = [(file, dir, file)] := by
  refine moveFile_elim W file dir c s (fun r => moves r.2.1 = [(file, dir, file)]) ?_ ?_ <;>
    intros <;> simp [moves]

theorem moveFile_countMove (W : World σ) (file dir : String) (c : Counters) (s : σ) :
    (moveFile W file dir c s).2.1.countP Event.isMove = 1 := by
  refine moveFile_elim W file dir c s (fun r => r.2.1.countP Event.isMove = 1) ?_ ?_ <;>
    intros <;> simp [Event.isMove, List.countP_cons]

theorem moveFile_landed (W : World σ) (file dir : String) (c : Counters) (s : σ)
    (h : (moveFile W file dir c s).2.1.any Event.isFailedMove = false) :
    landed (moveFile W file dir c s).2.1 file = [dir] := by
  revert h
  refine moveFile_elim W file dir c s
    (fun r => r.2.1.any Event.isFailedMove = false → landed r.2.1 file = [dir]) ?_ ?_ <;>
    intros <;> simp_all [landed, Event.isFailedMove]

theorem moveFile_events (W : World σ) (file dir : String) (c : Counters) (s : σ) :
    ∀ e ∈ (moveFile W file dir c s).2.1,
      e.isLoopEvent = true ∧ e.isEdit = false ∧ e.isFailedStep = false ∧
      (e.isMove = true → e.movesFile file = true) := by
  refine moveFile_elim W file dir c s
    (fun r => ∀ e ∈ r.2.1, e.isLoopEvent = true ∧ e.isEdit = false ∧ e.isFailedStep = false ∧
      (e.isMove = true → e.movesFile file = true)) ?_ ?_ <;>
    intros <;> simp [Event.isLoopEvent, Event.isEdit, Event.isFailedStep, Event.isMove,
      Event.movesFile]

/-! ### One loop iteration -/

theorem loopBody_incrementsOne (W : World σ) (fl : Flags) (file : String) (c : Counters) (s : σ) :
    IncrementsOne c (loopBody W fl file c s).1 := by
  refine loopBody_elim W fl file c s (fun r => IncrementsOne c r.1) ?_ ?_ ?_ ?_ ?_ ?_
  · intros; simp [IncrementsOne]
  · intros; simp [IncrementsOne]
  · intros; simp [IncrementsOne]
  · intro _ _ _ s4 _ _ _
    have h := moveFile_outcome W file doneDir { c with doneCount := c.doneCount + 1 } s4
    simp only [SameOutcome] at h
    simp [IncrementsOne, h]
  · intro _ _ _ _ s3 _ _ _
    have h := moveFile_outcome W file skipDir { c with skipCount := c.skipCount + 1 } s3
    simp only [SameOutcome] at h
    simp [IncrementsOne, h]
  · intro _ _ _ _ s3 _ _ _
    have h := moveFile_outcome W file dupeDir { c with dupeCount := c.dupeCount + 1 } s3
    simp only [SameOutcome] at h
    simp [IncrementsOne, h]

theorem loopBody_moveErr (W : World σ) (fl : Flags) (file : String) (c : Counters) (s : σ) :
    (loopBody W fl file c s).1.moveErrCount =
      c.moveErrCount + (loopBody W fl file c s).2.1.countP Event.isFailedMove := by
  refine loopBody_elim W fl file c s
    (fun r => r.1.moveErrCount = c.moveErrCount + r.2.1.countP Event.isFailedMove)
    ?_ ?_ ?_ ?_ ?_ ?_ <;> intros <;>
    simp [Event.isFailedMove, List.countP_cons, List.countP_append, moveFile_moveErr]

theorem loopBody_countMove (W : World σ) (fl : Flags) (file : String) (c : Counters) (s : σ) :
    (loopBody W fl file c s).1.doneCount + (loopBody W fl file c s).1.dupeCount +
      (loopBody W fl file c s).1.skipCount =
    c.doneCount + c.dupeCount + c.skipCount + (loopBody W fl file c s).2.1.countP Event.isMove := by
  refine loopBody_elim W fl file c s
    (fun r => r.1.doneCount + r.1.dupeCount + r.1.skipCount =
      c.doneCount + c.dupeCount + c.skipCount + r.2.1.countP Event.isMove) ?_ ?_ ?_ ?_ ?_ ?_
  · intros; simp [Event.isMove, List.countP_cons]
  · intros; simp [Event.isMove, List.countP_cons]
  · intros; simp [Event.isMove, List.countP_cons]
  · intro _ _ _ s4 _ _ _
    have h := moveFile_outcome W file doneDir { c with doneCount := c.doneCount + 1 } s4
    simp only [SameOutcome] at h
    simp [Event.isMove, List.countP_cons, List.countP_append, moveFile_countMove, h]
    omega
  · intro _ _ _ _ s3 _ _ _
    have h := moveFile_outcome W file skipDir { c with skipCount := c.skipCount + 1 } s3
    simp only [SameOutcome] at h
    simp [Event.isMove, List.countP_cons, List.countP_append, moveFile_countMove, h]
    omega
  · intro _ _ _ _ s3 _ _ _
    have h := moveFile_outcome W file dupeDir { c with dupeCount := c.dupeCount + 1 } s3
    simp only [SameOutcome] at h
    simp [Event.isMove, List.countP_cons, List.countP_append, moveFile_countMove, h]
    omega

theorem countP_eq_zero_of_all_false (p : Event → Bool) (tr : List Event)
    (h : ∀ e ∈ tr, p e = false) : tr.countP p = 0 := by
  rw [List.countP_eq_zero]
  intro e he
  simp [h e he]

theorem moveFile_countEdit (W : World σ) (file dir : String) (c : Counters) (s : σ) :
    (moveFile W file dir c s).2.1.countP Event.isEdit = 0 ∧
    (moveFile W file dir c s).2.1.countP Event.isEditOk = 0 := by
  refine moveFile_elim W file dir c s
    (fun r => r.2.1.countP Event.isEdit = 0 ∧ r.2.1.countP Event.isEditOk = 0) ?_ ?_ <;>
    intros <;> simp [Event.isEdit, Event.isEditOk, List.countP_cons]

theorem loopBody_countEdit (W : World σ) (fl : Flags) (file : String) (c : Counters) (s : σ) :
    (loopBody W fl file c s).1.doneCount =
      c.doneCount + (loopBody W fl file c s).2.1.countP Event.isEditOk ∧
    (loopBody W fl file c s).2.1.countP Event.isEdit ≤ 1 := by
  refine loopBody_elim W fl file c s
    (fun r => r.1.doneCount = c.doneCount + r.2.1.countP Event.isEditOk ∧
      r.2.1.countP Event.isEdit ≤ 1) ?_ ?_ ?_ ?_ ?_ ?_
  · intros; simp [Event.isEdit, Event.isEditOk, List.countP_cons]
  · intros; simp [Event.isEdit, Event.isEditOk, List.countP_cons]
  · intros; simp [Event.isEdit, Event.isEditOk, List.countP_cons]
  · intro _ _ _ s4 _ _ _
    have h := moveFile_outcome W file doneDir { c with doneCount := c.doneCount + 1 } s4
    simp only [SameOutcome] at h
    simp [Event.isEdit, Event.isEditOk, List.countP_cons, List.countP_append,
      moveFile_countEdit, h]
  · intro _ _ _ _ s3 _ _ _
    have h := moveFile_outcome W file skipDir { c with skipCount := c.skipCount + 1 } s3
    simp only [SameOutcome] at h
    simp [Event.isEdit, Event.isEditOk, List.countP_cons, List.countP_append,
      moveFile_countEdit, h]
  · intro _ _ _ _ s3 _ _ _
    have h := moveFile_outcome W file dupeDir { c with dupeCount := c.dupeCount + 1 } s3
    simp only [SameOutcome] at h
    simp [Event.isEdit, Event.isEditOk, List.countP_cons, List.countP_append,
      moveFile_countEdit, h]

theorem loopBody_events (W : World σ) (fl : Flags) (file : String) (c : Counters) (s : σ) :
    ∀ e ∈ (loopBody W fl file c s).2.1,
      e.isLoopEvent = true ∧ (e.isMove = true → e.movesFile file = true) := by
  refine loopBody_elim W fl file c s
    (fun r => ∀ e ∈ r.2.1, e.isLoopEvent = true ∧ (e.isMove = true → e.movesFile file = true))
    ?_ ?_ ?_ ?_ ?_ ?_
  · intros; simp [Event.isLoopEvent, Event.isMove]
  · intros; simp [Event.isLoopEvent, Event.isMove]
  · intros; simp [Event.isLoopEvent, Event.isMove]
  all_goals
    intros
    intro e he
    simp only [List.mem_append, List.mem_cons, List.mem_singleton, List.not_mem_nil,
      or_false] at he
    rcases he with (he | he | he | he | he) | he
    any_goals (subst he; simp [Event.isLoopEvent, Event.isMove])
    exact ⟨(moveFile_events W file _ _ _ e he).1, (moveFile_events W file _ _ _ e he).2.2.2⟩

theorem moves_append (a b : List Event) : moves (a ++ b) = moves a ++ moves b := by
  simp [moves, List.filterMap_append]

theorem landed_append (a b : List Event) (file : String) :
    landed (a ++ b) file = landed a file ++ landed b file := by
  simp [landed, List.filterMap_append]

theorem mkdirs_append (a b : List Event) : mkdirs (a ++ b) = mkdirs a ++ mkdirs b := by
  simp [mkdirs, List.filterMap_append]

theorem moveFile_no_failedStep (W : World σ) (file dir : String) (c : Counters) (s : σ) :
    (moveFile W file dir c s).2.1.any Event.isFailedStep = false := by
  rw [List.any_eq_false]
  intro e he
  simp [(moveFile_events W file dir c s e he).2.2.1]

theorem loopBody_editsFollow (W : World σ) (fl : Flags) (file : String) (c : Counters) (s : σ) :
    EditsFollowEmptyRead (loopBody W fl file c s).2.1 := by
  refine loopBody_elim W fl file c s (fun r => EditsFollowEmptyRead r.2.1) ?_ ?_ ?_ ?_ ?_ ?_
  · intros
    exact editsFollow_of_no_edit _ (by simp [Event.isEdit])
  · intros
    exact editsFollow_of_no_edit _ (by simp [Event.isEdit])
  · intro content _ _ e _ _ _ _
    have h := editsFollow_append _ _
      (editsFollow_append _ _
        (editsFollow_of_no_edit [Event.ReadFile file (Res.ok content), Event.Sleep fl.pause]
          (by simp [Event.isEdit]))
        (editsFollow_pair ⟨TrimSuffix file fl.extension, fl.summary, content⟩ (some e)))
      (editsFollow_of_no_edit
        [Event.Log "Error uploading page %s, skipping...\n" [Arg.str (TrimSuffix file fl.extension)]]
        (by simp [Event.isEdit]))
    simpa using h
  · intro content _ _ s4 _ _ _
    have h := editsFollow_append _ _
      (editsFollow_append _ _
        (editsFollow_of_no_edit [Event.ReadFile file (Res.ok content), Event.Sleep fl.pause]
          (by simp [Event.isEdit]))
        (editsFollow_pair ⟨TrimSuffix file fl.extension, fl.summary, content⟩ none))
      (editsFollow_append _ _
        (editsFollow_of_no_edit
          [Event.Log "Successfully uploaded \"%s\", page didn\x27t exist before.\n"
            [Arg.str (TrimSuffix file fl.extension)]]
          (by simp [Event.isEdit]))
        (editsFollow_of_no_edit _ (fun e he =>
          (moveFile_events W file doneDir { c with doneCount := c.doneCount + 1 } s4 e he).2.1)))
    simpa using h
  · intro _ _ _ _ s3 _ _ _
    refine editsFollow_append _ _ (editsFollow_of_no_edit _ (by simp [Event.isEdit]))
      (editsFollow_of_no_edit _ (fun e he => (moveFile_events W file _ _ _ e he).2.1))
  · intro _ _ _ _ s3 _ _ _
    refine editsFollow_append _ _ (editsFollow_of_no_edit _ (by simp [Event.isEdit]))
      (editsFollow_of_no_edit _ (fun e he => (moveFile_events W file _ _ _ e he).2.1))

theorem moveFile_fate (W : World σ) (file dir : String) (c : Counters) (s : σ) :
    (((moveFile W file dir c s).2.1.any Event.isFailedMove = false →
        landed (moveFile W file dir c s).2.1 file = [dir]) ∧
     ((moveFile W file dir c s).2.1.any Event.isFailedMove = true →
        landed (moveFile W file dir c s).2.1 file = [])) := by
  refine moveFile_elim W file dir c s
    (fun r => (r.2.1.any Event.isFailedMove = false → landed r.2.1 file = [dir]) ∧
      (r.2.1.any Event.isFailedMove = true → landed r.2.1 file = [])) ?_ ?_ <;>
    intros <;> simp [landed, Event.isFailedMove]

theorem loopBody_fate (W : World σ) (fl : Flags) (file : String) (c : Counters) (s : σ) :
    FileFate file (loopBody W fl file c s).2.1 := by
  refine loopBody_elim W fl file c s (fun r => FileFate file r.2.1) ?_ ?_ ?_ ?_ ?_ ?_
  · intros; simp [FileFate, Event.isFailedStep, moves]
  · intros; simp [FileFate, Event.isFailedStep, moves]
  · intros; simp [FileFate, Event.isFailedStep, moves]
  · intro content _ _ s4 _ _ _
    have hm := moveFile_moves W file doneDir { c with doneCount := c.doneCount + 1 } s4
    have hf := moveFile_fate W file doneDir { c with doneCount := c.doneCount + 1 } s4
    have hs := moveFile_no_failedStep W file doneDir { c with doneCount := c.doneCount + 1 } s4
    refine ⟨fun _ => ⟨doneDir, by simp [outputDirs], ?_, ?_, ?_⟩, ?_⟩
    · rw [moves_append, hm]; simp [moves]
    · intro h
      rw [landed_append, hf.1 (by simpa [Event.isFailedMove] using h)]; simp [landed]
    · intro h
      rw [landed_append, hf.2 (by simpa [Event.isFailedMove] using h)]; simp [landed]
    · intro h
      rw [List.any_append, hs] at h
      simp [Event.isFailedStep] at h
  · intro content _ _ _ s3 _ _ _
    have hm := moveFile_moves W file skipDir { c with skipCount := c.skipCount + 1 } s3
    have hf := moveFile_fate W file skipDir { c with skipCount := c.skipCount + 1 } s3
    have hs := moveFile_no_failedStep W file skipDir { c with skipCount := c.skipCount + 1 } s3
    refine ⟨fun _ => ⟨skipDir, by simp [outputDirs], ?_, ?_, ?_⟩, ?_⟩
    · rw [moves_append, hm]; simp [moves]
    · intro h
      rw [landed_append, hf.1 (by simpa [Event.isFailedMove] using h)]; simp [landed]
    · intro h
      rw [landed_append, hf.2 (by simpa [Event.isFailedMove] using h)]; simp [landed]
    · intro h
      rw [List.any_append, hs] at h
      simp [Event.isFailedStep] at h
  · intro content _ _ _ s3 _ _ _
    have hm := moveFile_moves W file dupeDir { c with dupeCount := c.dupeCount + 1 } s3
    have hf := moveFile_fate W file dupeDir { c with dupeCount := c.dupeCount + 1 } s3
    have hs := moveFile_no_failedStep W file dupeDir { c with dupeCount := c.dupeCount + 1 } s3
    refine ⟨fun _ => ⟨dupeDir, by simp [outputDirs], ?_, ?_, ?_⟩, ?_⟩
    · rw [moves_append, hm]; simp [moves]
    · intro h
      rw [landed_append, hf.1 (by simpa [Event.isFailedMove] using h)]; simp [landed]
    · intro h
      rw [landed_append, hf.2 (by simpa [Event.isFailedMove] using h)]; simp [landed]
    · intro h
      rw [List.any_append, hs] at h
      simp [Event.isFailedStep] at h

/-! ### The loop -/

theorem loop_nil (W : World σ) (fl : Flags) (c : Counters) (s : σ) :
    loop W fl [] c s = (c, [], s) := rfl

theorem loop_cons (W : World σ) (fl : Flags) (file : String) (rest : List String)
    (c : Counters) (s : σ) :
    loop W fl (file :: rest) c s =
      ((loop W fl rest (loopBody W fl file c s).1 (loopBody W fl file c s).2.2).1,
       (loopBody W fl file c s).2.1 ++
         (loop W fl rest (loopBody W fl file c s).1 (loopBody W fl file c s).2.2).2.1,
       (loop W fl rest (loopBody W fl file c s).1 (loopBody W fl file c s).2.2).2.2) := rfl

theorem loop_sum (W : World σ) (fl : Flags) (files : List String) (c : Counters) (s : σ) :
    (loop W fl files c s).1.doneCount + (loop W fl files c s).1.dupeCount +
      (loop W fl files c s).1.skipCount + (loop W fl files c s).1.errCount =
    c.doneCount + c.dupeCount + c.skipCount + c.errCount + files.length := by
  induction files generalizing c s with
  | nil => simp [loop_nil]
  | cons file rest ih =>
    rw [loop_cons]
    simp only [ih, List.length_cons]
    have h := loopBody_incrementsOne W fl file c s
    unfold IncrementsOne at h
    omega

theorem loop_moveErr (W : World σ) (fl : Flags) (files : List String) (c : Counters) (s : σ) :
    (loop W fl files c s).1.moveErrCount =
      c.moveErrCount + (loop W fl files c s).2.1.countP Event.isFailedMove := by
  induction files generalizing c s with
  | nil => simp [loop_nil]
  | cons file rest ih =>
    rw [loop_cons]
    simp only [ih, List.countP_append, loopBody_moveErr W fl file c s]
    omega

theorem loop_countMove (W : World σ) (fl : Flags) (files : List String) (c : Counters) (s : σ) :
    (loop W fl files c s).1.doneCount + (loop W fl files c s).1.dupeCount +
      (loop W fl files c s).1.skipCount =
    c.doneCount + c.dupeCount + c.skipCount + (loop W fl files c s).2.1.countP Event.isMove := by
  induction files generalizing c s with
  | nil => simp [loop_nil]
  | cons file rest ih =>
    rw [loop_cons]
    simp only [ih, List.countP_append, loopBody_countMove W fl file c s]
    omega

theorem loop_countEdit (W : World σ) (fl : Flags) (files : List String) (c : Counters) (s : σ) :
    (loop W fl files c s).1.doneCount =
      c.doneCount + (loop W fl files c s).2.1.countP Event.isEditOk ∧
    (loop W fl files c s).2.1.countP Event.isEdit ≤ files.length := by
  induction files generalizing c s with
  | nil => simp [loop_nil]
  | cons file rest ih =>
    rw [loop_cons]
    have h := loopBody_countEdit W fl file c s
    have h2 := ih (loopBody W fl file c s).1 (loopBody W fl file c s).2.2
    simp only [List.countP_append, List.length_cons]
    omega

theorem loop_events (W : World σ) (fl : Flags) (files : List String) (c : Counters) (s : σ) :
    ∀ e ∈ (loop W fl files c s).2.1, e.isLoopEvent = true := by
  induction files generalizing c s with
  | nil => simp [loop_nil]
  | cons file rest ih =>
    rw [loop_cons]
    intro e he
    rcases List.mem_append.mp he with h | h
    · exact (loopBody_events W fl file c s e h).1
    · exact ih _ _ e h

theorem loop_editsFollow (W : World σ) (fl : Flags) (files : List String) (c : Counters) (s : σ) :
    EditsFollowEmptyRead (loop W fl files c s).2.1 := by
  induction files generalizing c s with
  | nil => exact editsFollow_of_no_edit _ (by simp [loop_nil])
  | cons file rest ih =>
    rw [loop_cons]
    exact editsFollow_append _ _ (loopBody_editsFollow W fl file c s) (ih _ _)

/-- The trace of the loop is made of one segment per file, in order, each the
trace of that file. -/
theorem loop_segments (W : World σ) (fl : Flags) (files : List String) (c : Counters) (s : σ) :
    ∃ segs : List (List Event), (loop W fl files c s).2.1 = segs.flatten ∧
      List.Forall₂ (fun file seg => ∃ c0 s0, seg = (loopBody W fl file c0 s0).2.1) files segs := by
  induction files generalizing c s with
  | nil => exact ⟨[], by simp [loop_nil], List.Forall₂.nil⟩
  | cons file rest ih =>
    obtain ⟨segs, hseg, hall⟩ := ih (loopBody W fl file c s).1 (loopBody W fl file c s).2.2
    refine ⟨(loopBody W fl file c s).2.1 :: segs, ?_, List.Forall₂.cons ⟨c, s, rfl⟩ hall⟩
    rw [loop_cons]
    simp [hseg]

theorem loopBody_not_movesFile (W : World σ) (fl : Flags) (f file : String) (c : Counters)
    (s : σ) (hne : f ≠ file) :
    ∀ e ∈ (loopBody W fl f c s).2.1, e.isLoopEvent = true ∧ e.movesFile file = false := by
  intro e he
  obtain ⟨h1, h2⟩ := loopBody_events W fl f c s e he
  refine ⟨h1, ?_⟩
  cases e <;> simp_all [Event.movesFile, Event.isMove]

theorem loop_not_movesFile (W : World σ) (fl : Flags) (files : List String) (file : String)
    (c : Counters) (s : σ) (hnot : file ∉ files) :
    ∀ e ∈ (loop W fl files c s).2.1, e.isLoopEvent = true ∧ e.movesFile file = false := by
  induction files generalizing c s with
  | nil => simp [loop_nil]
  | cons f rest ih =>
    rw [loop_cons]
    intro e he
    simp only [List.mem_cons, not_or] at hnot
    rcases List.mem_append.mp he with h | h
    · exact loopBody_not_movesFile W fl f file c s (fun h => hnot.1 h.symm) e h
    · exact ih _ _ hnot.2 e h

/-- In the loop over distinct files, the moves of one file all lie inside the
segment of its own iteration. -/
theorem loop_file_segment (W : World σ) (fl : Flags) (files : List String) (c : Counters) (s : σ)
    (hnd : files.Nodup) (file : String) (hf : file ∈ files) :
    ∃ a seg b, (loop W fl files c s).2.1 = a ++ seg ++ b ∧
      (∃ c0 s0, seg = (loopBody W fl file c0 s0).2.1) ∧
      (∀ e ∈ a ++ b, e.isLoopEvent = true ∧ e.movesFile file = false) := by
  induction files generalizing c s with
  | nil => simp at hf
  | cons f rest ih =>
    rw [loop_cons]
    have hnd2 := List.nodup_cons.mp hnd
    by_cases h : f = file
    · subst h
      refine ⟨[], (loopBody W fl f c s).2.1,
        (loop W fl rest (loopBody W fl f c s).1 (loopBody W fl f c s).2.2).2.1,
        by simp only [List.nil_append], ⟨c, s, rfl⟩, ?_⟩
      intro e he
      simp only [List.nil_append] at he
      exact loop_not_movesFile W fl rest f _ _ hnd2.1 e he
    · have hin : file ∈ rest := by
        rcases List.mem_cons.mp hf with h1 | h1
        · exact absurd h1.symm h
        · exact h1
      obtain ⟨a, seg, b, htr, hseg, hab⟩ :=
        ih (loopBody W fl f c s).1 (loopBody W fl f c s).2.2 hnd2.2 hin
      refine ⟨(loopBody W fl f c s).2.1 ++ a, seg, b, by simp [htr], hseg, ?_⟩
      intro e he
      simp only [List.append_assoc, List.mem_append] at he
      rcases he with he | he | he
      · exact loopBody_not_movesFile W fl f file c s h e he
      · exact hab e (List.mem_append.mpr (Or.inl he))
      · exact hab e (List.mem_append.mpr (Or.inr he))

/-! ### The directory checks -/

theorem entryAborts_of_none (tr : List Event) (h : ∀ e ∈ tr, e.isEntryRead = false) :
    EntryAborts tr := by
  intro pre post d n names err htr herr
  have hmem : Event.Readdirnames d n names err ∈ tr := by simp [htr]
  have := h _ hmem
  simp [Event.isEntryRead, herr] at this

theorem entryAborts_append (a b : List Event) (ha : ∀ e ∈ a, e.isEntryRead = false)
    (hb : EntryAborts b) : EntryAborts (a ++ b) := by
  intro pre post d n names err htr herr
  rcases List.append_eq_append_iff.mp htr with ⟨a1, -, hb1⟩ | ⟨c1, ha1, hc1⟩
  · exact hb a1 post d n names err hb1 herr
  · cases c1 with
    | nil =>
      simp only [List.nil_append] at hc1
      exact hb [] post d n names err (by simp [← hc1]) herr
    | cons x c2 =>
      simp only [List.cons_append, List.cons.injEq] at hc1
      obtain ⟨hx, -⟩ := hc1
      subst hx
      have := ha (Event.Readdirnames d n names err) (by simp [ha1])
      simp [Event.isEntryRead, herr] at this

theorem entryAborts_cons (e : Event) (b : List Event) (he : e.isEntryRead = false)
    (hb : EntryAborts b) : EntryAborts (e :: b) :=
  entryAborts_append [e] b (by simpa using he) hb

/-- The five ways `checkDir` can go. -/
theorem checkDir_elim (W : World σ) (dir description : String) (s : σ)
    (P : Bool × List Event × σ → Prop)
    (hMkdir : ∀ e s1, W.MkdirAll dir s = (some e, s1) →
      P (false, [Event.MkdirAll dir (some e),
        Event.Fatal "Error creating %s directory \"%s\": %s\n"
          [Arg.str description, Arg.str dir, Arg.err e]], s1))
    (hOpen : ∀ s1 e s2, W.MkdirAll dir s = (none, s1) → W.Open dir s1 = (some e, s2) →
      P (false, [Event.MkdirAll dir none, Event.Open dir (some e),
        Event.Fatal "Error checking if %s directory \"%s\" is empty: %s\n"
          [Arg.str description, Arg.str dir, Arg.err e]], s2))
    (hErr : ∀ s1 s2 names e s3, W.MkdirAll dir s = (none, s1) → W.Open dir s1 = (none, s2) →
      W.Readdirnames dir 1 s2 = ((names, some e), s3) → e ≠ Error.EOF →
      P (false, [Event.MkdirAll dir none, Event.Open dir none,
        Event.Readdirnames dir 1 names (some e), Event.Close dir,
        Event.Fatal "Error checking if %s directory \"%s\" is empty: %s\n"
          [Arg.str description, Arg.str dir, Arg.err e]], W.Close dir s3))
    (hEntry : ∀ s1 s2 names s3, W.MkdirAll dir s = (none, s1) → W.Open dir s1 = (none, s2) →
      W.Readdirnames dir 1 s2 = ((names, none), s3) →
      P (false, [Event.MkdirAll dir none, Event.Open dir none,
        Event.Readdirnames dir 1 names none, Event.Close dir,
        Event.Fatal "Error: Please make sure the %s directory \"%s\" is empty.\n"
          [Arg.str description, Arg.str dir]], W.Close dir s3))
    (hEmpty : ∀ s1 s2 names s3, W.MkdirAll dir s = (none, s1) → W.Open dir s1 = (none, s2) →
      W.Readdirnames dir 1 s2 = ((names, some Error.EOF), s3) →
      P (true, [Event.MkdirAll dir none, Event.Open dir none,
        Event.Readdirnames dir 1 names (some Error.EOF), Event.Close dir], W.Close dir s3)) :
    P (checkDir W dir description s) := by
  unfold checkDir isDirEmpty
  rcases h1 : W.MkdirAll dir s with ⟨_ | e, s1⟩
  · simp only
    rcases h2 : W.Open dir s1 with ⟨_ | e, s2⟩
    · simp only
      rcases h3 : W.Readdirnames dir 1 s2 with ⟨⟨names, _ | (_ | msg)⟩, s3⟩
      · simpa using hEntry s1 s2 names s3 h1 h2 h3
      · simpa using hEmpty s1 s2 names s3 h1 h2 h3
      · simpa using hErr s1 s2 names (Error.other msg) s3 h1 h2 h3 (by simp)
    · simpa using hOpen s1 e s2 h1 h2
  · simpa using hMkdir e s1 h1

/-- What every `checkDir` call guarantees about its trace. -/
theorem checkDir_spec (W : World σ) (dir description : String) (s : σ) :
    (∀ e ∈ (checkDir W dir description s).2.1, e.isDirCheck = true) ∧
    mkdirs (checkDir W dir description s).2.1 = [dir] ∧
    EntryAborts (checkDir W dir description s).2.1 ∧
    ((checkDir W dir description s).1 = true →
      ∀ e ∈ (checkDir W dir description s).2.1, e.isEntryRead = false ∧ e.isFatal = false) ∧
    ((checkDir W dir description s).1 = false →
      ∃ t f a, (checkDir W dir description s).2.1 = t ++ [Event.Fatal f a]) := by
  refine checkDir_elim W dir description s
    (fun r => (∀ e ∈ r.2.1, e.isDirCheck = true) ∧ mkdirs r.2.1 = [dir] ∧ EntryAborts r.2.1 ∧
      (r.1 = true → ∀ e ∈ r.2.1, e.isEntryRead = false ∧ e.isFatal = false) ∧
      (r.1 = false → ∃ t f a, r.2.1 = t ++ [Event.Fatal f a])) ?_ ?_ ?_ ?_ ?_
  · intro e s1 _
    refine ⟨by simp [Event.isDirCheck], by simp [mkdirs],
      entryAborts_of_none _ (by simp [Event.isEntryRead]), by simp, fun _ => ⟨[_], _, _, rfl⟩⟩
  · intro s1 e s2 _ _
    refine ⟨by simp [Event.isDirCheck], by simp [mkdirs],
      entryAborts_of_none _ (by simp [Event.isEntryRead]), by simp, fun _ => ⟨[_, _], _, _, rfl⟩⟩
  · intro s1 s2 names e s3 _ _ _ he
    refine ⟨by simp [Event.isDirCheck], by simp [mkdirs], ?_, by simp,
      fun _ => ⟨[_, _, _, _], _, _, rfl⟩⟩
    refine entryAborts_cons _ _ (by simp [Event.isEntryRead])
      (entryAborts_cons _ _ (by simp [Event.isEntryRead]) ?_)
    intro pre post d n names1 err htr _
    rcases pre with _ | ⟨x, pre⟩
    · simp only [List.nil_append, List.cons.injEq, Event.Readdirnames.injEq] at htr
      obtain ⟨⟨hd, -, -, herr⟩, hpost⟩ := htr
      subst hd
      exact ⟨_, _, hpost.symm, fun h => by simp [← herr] at h⟩
    · rcases pre with _ | ⟨y, pre⟩
      · simp at htr
      · rcases pre with _ | ⟨z, pre⟩ <;> simp at htr
  · intro s1 s2 names s3 _ _ _
    refine ⟨by simp [Event.isDirCheck], by simp [mkdirs], ?_, by simp,
      fun _ => ⟨[_, _, _, _], _, _, rfl⟩⟩
    refine entryAborts_cons _ _ (by simp [Event.isEntryRead])
      (entryAborts_cons _ _ (by simp [Event.isEntryRead]) ?_)
    intro pre post d n names1 err htr _
    rcases pre with _ | ⟨x, pre⟩
    · simp only [List.nil_append, List.cons.injEq, Event.Readdirnames.injEq] at htr
      obtain ⟨⟨hd, -, -, -⟩, hpost⟩ := htr
      subst hd
      exact ⟨_, _, hpost.symm, fun _ => ⟨description, rfl, rfl⟩⟩
    · rcases pre with _ | ⟨y, pre⟩
      · simp at htr
      · rcases pre with _ | ⟨z, pre⟩ <;> simp at htr
  · intro s1 s2 names s3 _ _ _
    refine ⟨by simp [Event.isDirCheck], by simp [mkdirs],
      entryAborts_of_none _ (by simp [Event.isEntryRead]),
      fun _ => by simp [Event.isEntryRead, Event.isFatal], by simp⟩

/-- A directory from which reading one entry never answers end-of-directory is
never accepted by `checkDir`. -/
theorem checkDir_entry (W : World σ) (dir description : String) (s : σ)
    (h : ∀ s1, (W.Readdirnames dir 1 s1).1.2 ≠ some Error.EOF) :
    (checkDir W dir description s).1 = false := by
  refine checkDir_elim W dir description s (fun r => r.1 = false) ?_ ?_ ?_ ?_ ?_
  · intros; rfl
  · intros; rfl
  · intros; rfl
  · intros; rfl
  · intro s1 s2 names s3 _ _ h3
    have := h s2
    simp [h3] at this

/-- The three ways the directory checks can go. -/
theorem checkDirs_elim (W : World σ) (s : σ) (P : Bool × List Event × σ → Prop)
    (hDone : (checkDir W doneDir "done" s).1 = false →
      P (false, (checkDir W doneDir "done" s).2.1, (checkDir W doneDir "done" s).2.2))
    (hDupe : (checkDir W doneDir "done" s).1 = true →
      (checkDir W dupeDir "duplicates" (checkDir W doneDir "done" s).2.2).1 = false →
      P (false, (checkDir W doneDir "done" s).2.1 ++
          (checkDir W dupeDir "duplicates" (checkDir W doneDir "done" s).2.2).2.1,
        (checkDir W dupeDir "duplicates" (checkDir W doneDir "done" s).2.2).2.2))
    (hSkip : (checkDir W doneDir "done" s).1 = true →
      (checkDir W dupeDir "duplicates" (checkDir W doneDir "done" s).2.2).1 = true →
      P ((checkDir W skipDir "skipped"
            (checkDir W dupeDir "duplicates" (checkDir W doneDir "done" s).2.2).2.2).1,
        (checkDir W doneDir "done" s).2.1 ++
          (checkDir W dupeDir "duplicates" (checkDir W doneDir "done" s).2.2).2.1 ++
          (checkDir W skipDir "skipped"
            (checkDir W dupeDir "duplicates" (checkDir W doneDir "done" s).2.2).2.2).2.1,
        (checkDir W skipDir "skipped"
            (checkDir W dupeDir "duplicates" (checkDir W doneDir "done" s).2.2).2.2).2.2)) :
    P (checkDirs W s) := by
  unfold checkDirs
  rcases hc1 : checkDir W doneDir "done" s with ⟨_ | _, t1, s1⟩
  · simpa [hc1] using hDone
  · simp only [hc1] at hDupe hSkip
    simp only
    rcases hc2 : checkDir W dupeDir "duplicates" s1 with ⟨_ | _, t2, s2⟩
    · simpa [hc2] using hDupe
    · simp only [hc2] at hSkip
      simpa using hSkip

theorem checkDirs_spec (W : World σ) (s : σ) :
    (∀ e ∈ (checkDirs W s).2.1, e.isDirCheck = true) ∧
    mkdirs (checkDirs W s).2.1 <+: outputDirs ∧
    EntryAborts (checkDirs W s).2.1 ∧
    ((checkDirs W s).1 = true →
      ∀ e ∈ (checkDirs W s).2.1, e.isEntryRead = false ∧ e.isFatal = false) ∧
    ((checkDirs W s).1 = false → ∃ t f a, (checkDirs W s).2.1 = t ++ [Event.Fatal f a]) := by
  obtain ⟨ha1, hb1, hc1, hd1, he1⟩ := checkDir_spec W doneDir "done" s
  obtain ⟨ha2, hb2, hc2, hd2, he2⟩ :=
    checkDir_spec W dupeDir "duplicates" (checkDir W doneDir "done" s).2.2
  obtain ⟨ha3, hb3, hc3, hd3, he3⟩ := checkDir_spec W skipDir "skipped"
    (checkDir W dupeDir "duplicates" (checkDir W doneDir "done" s).2.2).2.2
  refine checkDirs_elim W s
    (fun r => (∀ e ∈ r.2.1, e.isDirCheck = true) ∧ mkdirs r.2.1 <+: outputDirs ∧
      EntryAborts r.2.1 ∧
      (r.1 = true → ∀ e ∈ r.2.1, e.isEntryRead = false ∧ e.isFatal = false) ∧
      (r.1 = false → ∃ t f a, r.2.1 = t ++ [Event.Fatal f a])) ?_ ?_ ?_
  · intro h1
    refine ⟨ha1, ?_, hc1, by simp, fun _ => he1 h1⟩
    simp only [hb1, outputDirs]
    exact ⟨[dupeDir, skipDir], rfl⟩
  · intro h1 h2
    refine ⟨?_, ?_, ?_, by simp, ?_⟩
    · intro e hmem
      rcases List.mem_append.mp hmem with h | h
      · exact ha1 e h
      · exact ha2 e h
    · simp only [mkdirs_append, hb1, hb2, outputDirs]
      exact ⟨[skipDir], rfl⟩
    · exact entryAborts_append _ _ (fun e h => (hd1 h1 e h).1) hc2
    · intro _
      obtain ⟨t, f, a, ht⟩ := he2 h2
      exact ⟨(checkDir W doneDir "done" s).2.1 ++ t, f, a, by simp [ht]⟩
  · intro h1 h2
    refine ⟨?_, ?_, ?_, ?_, ?_⟩
    · intro e hmem
      simp only [List.mem_append] at hmem
      rcases hmem with (h | h) | h
      · exact ha1 e h
      · exact ha2 e h
      · exact ha3 e h
    · simp only [mkdirs_append, hb1, hb2, hb3, outputDirs]
      exact ⟨[], rfl⟩
    · simp only [List.append_assoc]
      exact entryAborts_append _ _ (fun e h => (hd1 h1 e h).1)
        (entryAborts_append _ _ (fun e h => (hd2 h2 e h).1) hc3)
    · intro hb e hmem
      simp only [List.mem_append] at hmem
      rcases hmem with (h | h) | h
      · exact hd1 h1 e h
      · exact hd2 h2 e h
      · exact hd3 hb e h
    · intro hb
      obtain ⟨t, f, a, ht⟩ := he3 hb
      exact ⟨(checkDir W doneDir "done" s).2.1 ++
        (checkDir W dupeDir "duplicates" (checkDir W doneDir "done" s).2.2).2.1 ++ t, f, a,
        by simp [ht]⟩

/-- A directory from which reading one entry never answers end-of-directory
makes the three checks fail. -/
theorem checkDirs_entry (W : World σ) (s : σ) (d : String) (hd : d ∈ outputDirs)
    (h : ∀ s1, (W.Readdirnames d 1 s1).1.2 ≠ some Error.EOF) :
    (checkDirs W s).1 = false := by
  refine checkDirs_elim W s (fun r => r.1 = false) ?_ ?_ ?_
  · intro _; rfl
  · intro _ _; rfl
  · intro h1 h2
    simp only [outputDirs, List.mem_cons, List.mem_singleton, List.not_mem_nil, or_false] at hd
    rcases hd with hd | hd | hd
    · subst hd
      have := checkDir_entry W doneDir "done" s h
      simp [h1] at this
    · subst hd
      have := checkDir_entry W dupeDir "duplicates" (checkDir W doneDir "done" s).2.2 h
      simp [h2] at this
    · subst hd
      exact checkDir_entry W skipDir "skipped" _ h

/-! ### Connecting and logging in -/

theorem connect_spec (W : World σ) (fl : Flags) (s : σ) :
    (∀ e ∈ (connect W fl s).2.1, e.isConnect = true) ∧
    ((connect W fl s).1 = true →
      (∃ u p, Event.Login u p none ∈ (connect W fl s).2.1) ∧
      ∀ e ∈ (connect W fl s).2.1, e.isFatal = false) ∧
    ((connect W fl s).1 = false →
      (∀ e ∈ (connect W fl s).2.1, e.isLoginOk = false) ∧
      ∃ t f a, (connect W fl s).2.1 = t ++ [Event.Fatal f a]) := by
  unfold connect
  rcases W.New fl.url "wikipush" s with ⟨_ | e, s1⟩
  · simp only
    rcases W.ReadLine s1 with ⟨username | e, s2⟩
    · simp only
      rcases W.ReadLine s2 with ⟨password | e, s3⟩
      · simp only
        rcases W.Login username password s3 with ⟨_ | e, s4⟩
        · refine ⟨by simp [Event.isConnect], fun _ => ⟨⟨username, password, by simp⟩,
            by simp [Event.isFatal]⟩, by simp⟩
        · refine ⟨by simp [Event.isConnect], by simp, fun _ => ⟨by simp [Event.isLoginOk],
            [_, _, _, _, _, _], _, _, rfl⟩⟩
      · refine ⟨by simp [Event.isConnect], by simp, fun _ => ⟨by simp [Event.isLoginOk],
          [_, _, _, _, _], _, _, rfl⟩⟩
    · refine ⟨by simp [Event.isConnect], by simp, fun _ => ⟨by simp [Event.isLoginOk],
        [_, _, _], _, _, rfl⟩⟩
  · refine ⟨by simp [Event.isConnect], by simp, fun _ => ⟨by simp [Event.isLoginOk],
      [_], _, _, rfl⟩⟩

/-! ### The whole run -/

/-- The seven ways `main` can go. -/
theorem main_elim (W : World σ) (fl : Flags) (s : σ) (P : Result σ → Prop)
    (hGlob : ∀ e s1, W.Glob ("*" ++ fl.extension) s = (Res.fail e, s1) →
      P ⟨Exit.fatal, [Event.Glob ("*" ++ fl.extension) (Res.fail e),
        Event.Fatal "Error reading filenames: %s" [Arg.err e]], s1⟩)
    (hDry : ∀ files s1, W.Glob ("*" ++ fl.extension) s = (Res.ok files, s1) → fl.run = false →
      P ⟨Exit.returned, [Event.Glob ("*" ++ fl.extension) (Res.ok files),
        Event.Stdout "%d files would be uploaded.\n" [Arg.int files.length]] ++
        (if files.length > 0 then
          [Event.Stdout "Start wikipush with \x60-run\x27 flag to perform the upload.\n" []]
         else []), s1⟩)
    (hNone : ∀ files s1, W.Glob ("*" ++ fl.extension) s = (Res.ok files, s1) → fl.run = true →
      files.length = 0 →
      P ⟨Exit.returned, [Event.Glob ("*" ++ fl.extension) (Res.ok files),
        Event.Stdout "No files found.\n" []], s1⟩)
    (hUrl : ∀ files s1, W.Glob ("*" ++ fl.extension) s = (Res.ok files, s1) → fl.run = true →
      files.length ≠ 0 → fl.url = "" →
      P ⟨Exit.fatal, [Event.Glob ("*" ++ fl.extension) (Res.ok files), Event.Fatal
        "Error: Missing URL: Please specify your MediaWiki API URL using the \x60-url\x27 flag." []],
        s1⟩)
    (hDirs : ∀ files s1, W.Glob ("*" ++ fl.extension) s = (Res.ok files, s1) → fl.run = true →
      files.length ≠ 0 → fl.url ≠ "" → (checkDirs W s1).1 = false →
      P ⟨Exit.fatal, Event.Glob ("*" ++ fl.extension) (Res.ok files) :: (checkDirs W s1).2.1,
        (checkDirs W s1).2.2⟩)
    (hConn : ∀ files s1, W.Glob ("*" ++ fl.extension) s = (Res.ok files, s1) → fl.run = true →
      files.length ≠ 0 → fl.url ≠ "" → (checkDirs W s1).1 = true →
      (connect W fl (checkDirs W s1).2.2).1 = false →
      P ⟨Exit.fatal, Event.Glob ("*" ++ fl.extension) (Res.ok files) :: (checkDirs W s1).2.1 ++
        (connect W fl (checkDirs W s1).2.2).2.1, (connect W fl (checkDirs W s1).2.2).2.2⟩)
    (hFull : ∀ files s1, W.Glob ("*" ++ fl.extension) s = (Res.ok files, s1) → fl.run = true →
      files.length ≠ 0 → fl.url ≠ "" → (checkDirs W s1).1 = true →
      (connect W fl (checkDirs W s1).2.2).1 = true →
      P ⟨Exit.returned, Event.Glob ("*" ++ fl.extension) (Res.ok files) :: (checkDirs W s1).2.1 ++
        (connect W fl (checkDirs W s1).2.2).2.1 ++
        (upload W fl files (connect W fl (checkDirs W s1).2.2).2.2).1,
        (upload W fl files (connect W fl (checkDirs W s1).2.2).2.2).2⟩) :
    P (main W fl s) := by
  unfold main
  simp only []
  rcases hg : W.Glob ("*" ++ fl.extension) s with ⟨files | e, s1⟩
  · simp only
    by_cases hrun : fl.run = true
    · by_cases hlen : files.length = 0
      · simpa [hrun, hlen] using hNone files s1 hg hrun hlen
      · by_cases hurl : fl.url = ""
        · simpa [hrun, hlen, hurl] using hUrl files s1 hg hrun hlen hurl
        · rcases hc : checkDirs W s1 with ⟨_ | _, t1, s2⟩
          · have := hDirs files s1 hg hrun hlen hurl (by rw [hc])
            simpa [hrun, hlen, hurl, hc] using this
          · rcases hn : connect W fl s2 with ⟨_ | _, t2, s3⟩
            · have := hConn files s1 hg hrun hlen hurl (by rw [hc]) (by rw [hc]; simp [hn])
              simpa [hrun, hlen, hurl, hc, hn] using this
            · have := hFull files s1 hg hrun hlen hurl (by rw [hc]) (by rw [hc]; simp [hn])
              simpa [hrun, hlen, hurl, hc, hn] using this
    · have hrun2 : fl.run = false := by simpa using hrun
      simpa [hrun2] using hDry files s1 hg hrun2
  · exact hGlob e s1 hg

theorem isSetup_of_isDirCheck (e : Event) (h : e.isDirCheck = true) :
    e.isSetup = true ∧ e.isLoginOk = false := by
  cases e <;> simp_all [Event.isDirCheck, Event.isSetup, Event.isLoginOk]

theorem isSetup_of_isConnect (e : Event) (h : e.isConnect = true) : e.isSetup = true := by
  cases e <;> simp_all [Event.isConnect, Event.isSetup]

theorem upload_trace (W : World σ) (fl : Flags) (files : List String) (s : σ) :
    (upload W fl files s).1 =
      [Event.Stdout "%d files will be uploaded.\n" [Arg.int files.length],
       Event.Stdout "This will take at least %s with the current throttle setting.\n"
         [Arg.dur (wrapInt64 (fl.pause * (files.length : Int)))]] ++
      (loop W fl files ⟨0, 0, 0, 0, 0⟩ s).2.1 ++
      summary files.length (loop W fl files ⟨0, 0, 0, 0, 0⟩ s).1 ++ [Event.Logout] := by
  unfold upload
  rcases loop W fl files ⟨0, 0, 0, 0, 0⟩ s with ⟨c, tr, s1⟩
  rfl

/-- Either the run stops before the loop, and then its trace holds set-up
events only and no successful login; or it logs in and runs the upload. -/
theorem main_shape (W : World σ) (fl : Flags) (s : σ) :
    ((∀ e ∈ (main W fl s).trace, e.isSetup = true ∧ e.isLoginOk = false)) ∨
    (∃ files s1 setup s3, W.Glob ("*" ++ fl.extension) s = (Res.ok files, s1) ∧
      fl.run = true ∧ files.length ≠ 0 ∧ fl.url ≠ "" ∧
      (∀ e ∈ setup, e.isSetup = true ∧ e.isFatal = false) ∧
      (∃ u p, Event.Login u p none ∈ setup) ∧
      (main W fl s).trace = setup ++ (upload W fl files s3).1 ∧
      (main W fl s).exit = Exit.returned) := by
  refine main_elim W fl s
    (fun r => (∀ e ∈ r.trace, e.isSetup = true ∧ e.isLoginOk = false) ∨
      (∃ files s1 setup s3, W.Glob ("*" ++ fl.extension) s = (Res.ok files, s1) ∧
        fl.run = true ∧ files.length ≠ 0 ∧ fl.url ≠ "" ∧
        (∀ e ∈ setup, e.isSetup = true ∧ e.isFatal = false) ∧
        (∃ u p, Event.Login u p none ∈ setup) ∧
        r.trace = setup ++ (upload W fl files s3).1 ∧ r.exit = Exit.returned))
    ?_ ?_ ?_ ?_ ?_ ?_ ?_
  · intros; left; simp [Event.isSetup, Event.isLoginOk]
  · intro files _ _ _; left
    by_cases h : files.length > 0 <;> simp [h, Event.isSetup, Event.isLoginOk]
  · intros; left; simp [Event.isSetup, Event.isLoginOk]
  · intros; left; simp [Event.isSetup, Event.isLoginOk]
  · intro files s1 _ _ _ _ _; left
    intro e he
    rcases List.mem_cons.mp he with h | h
    · subst h; simp [Event.isSetup, Event.isLoginOk]
    · exact isSetup_of_isDirCheck e ((checkDirs_spec W s1).1 e h)
  · intro files s1 _ _ _ _ _ hc; left
    intro e he
    have he2 : e = Event.Glob ("*" ++ fl.extension) (Res.ok files) ∨ e ∈ (checkDirs W s1).2.1 ∨
        e ∈ (connect W fl (checkDirs W s1).2.2).2.1 := by
      simpa using he
    rcases he2 with h | h | h
    · subst h; simp [Event.isSetup, Event.isLoginOk]
    · exact isSetup_of_isDirCheck e ((checkDirs_spec W s1).1 e h)
    · exact ⟨isSetup_of_isConnect e ((connect_spec W fl _).1 e h),
        ((connect_spec W fl _).2.2 hc).1 e h⟩
  · intro files s1 hg hrun hlen hurl hd hc; right
    refine ⟨files, s1, Event.Glob ("*" ++ fl.extension) (Res.ok files) :: (checkDirs W s1).2.1 ++
      (connect W fl (checkDirs W s1).2.2).2.1, _, hg, hrun, hlen, hurl, ?_, ?_, rfl, rfl⟩
    · intro e he
      have he2 : e = Event.Glob ("*" ++ fl.extension) (Res.ok files) ∨
          e ∈ (checkDirs W s1).2.1 ∨ e ∈ (connect W fl (checkDirs W s1).2.2).2.1 := by
        simpa using he
      rcases he2 with h | h | h
      · subst h; simp [Event.isSetup, Event.isFatal]
      · exact ⟨(isSetup_of_isDirCheck e ((checkDirs_spec W s1).1 e h)).1,
          ((checkDirs_spec W s1).2.2.2.1 hd e h).2⟩
      · exact ⟨isSetup_of_isConnect e ((connect_spec W fl _).1 e h),
          ((connect_spec W fl _).2.1 hc).2 e h⟩
    · obtain ⟨u, p, hup⟩ := ((connect_spec W fl (checkDirs W s1).2.2).2.1 hc).1
      exact ⟨u, p, by simp [hup]⟩

/-- The printed summary determines the numbers it was printed from. -/
theorem summary_inj (a b : List Event) (n m : Nat) (c d : Counters)
    (h : a ++ summary n c ++ [Event.Logout] = b ++ summary m d ++ [Event.Logout]) :
    n = m ∧ c = d ∧ a = b := by
  have hr := congrArg List.reverse h
  rcases c with ⟨c1, c2, c3, c4, c5⟩
  rcases d with ⟨d1, d2, d3, d4, d5⟩
  by_cases hc : c5 > 0 <;> by_cases hd : d5 > 0 <;>
    simp [summary, hc, hd] at hr
  · obtain ⟨h5, h4, h3, h2, h1, h0, hab⟩ := hr
    simp_all
  · have hc0 : c5 = 0 := by omega
    have hd0 : d5 = 0 := by omega
    simp_all

/-- A run whose trace contains `Logout` went through the whole upload: the
trace is the set-up, the two announcement lines, the loop, the summary and
the `Logout`. -/
theorem main_full (W : World σ) (fl : Flags) (s : σ)
    (h : (∃ e ∈ (main W fl s).trace, e.isSetup = false) ∨
      (∃ e ∈ (main W fl s).trace, e.isLoginOk = true)) :
    ∃ files s1 setup s3, W.Glob ("*" ++ fl.extension) s = (Res.ok files, s1) ∧
      fl.run = true ∧ files.length ≠ 0 ∧ fl.url ≠ "" ∧
      (∀ e ∈ setup, e.isSetup = true ∧ e.isFatal = false) ∧
      (∃ u p, Event.Login u p none ∈ setup) ∧
      (main W fl s).exit = Exit.returned ∧
      (main W fl s).trace = setup ++
        [Event.Stdout "%d files will be uploaded.\n" [Arg.int files.length],
         Event.Stdout "This will take at least %s with the current throttle setting.\n"
           [Arg.dur (wrapInt64 (fl.pause * (files.length : Int)))]] ++
        (loop W fl files ⟨0, 0, 0, 0, 0⟩ s3).2.1 ++
        summary files.length (loop W fl files ⟨0, 0, 0, 0, 0⟩ s3).1 ++ [Event.Logout] := by
  rcases main_shape W fl s with hA | ⟨files, s1, setup, s3, hg, hrun, hlen, hurl, hs, hl, htr, hex⟩
  · rcases h with ⟨e, he, h1⟩ | ⟨e, he, h1⟩
    · rw [(hA e he).1] at h1; simp at h1
    · rw [(hA e he).2] at h1; simp at h1
  · refine ⟨files, s1, setup, s3, hg, hrun, hlen, hurl, hs, hl, hex, ?_⟩
    rw [htr, upload_trace]
    simp only [List.append_assoc]

end Cases

/-! ## The properties of the specification -/

section Claims

variable {σ : Type}

/-- C1: in a run that reaches the final summary (its trace ends with the summary
lines for some `total` and counters `c`, followed by the deferred `Logout`),
the run was started with `-run`, `total` is the number of globbed files, and
uploaded + duplicate + skipped + error equals `total`; the move-error counter is
not part of the sum. Moreover every loop iteration increments exactly one of
these four counters, by one. -/
theorem summary_counters_sum_to_total (W : World σ) (fl : Flags) (s : σ)
    (pre : List Event) (total : Nat) (c : Counters)
    (h : (main W fl s).trace = pre ++ summary total c ++ [Event.Logout]) :
    fl.run = true ∧
    (∃ files, (W.Glob ("*" ++ fl.extension) s).1 = Res.ok files ∧ total = files.length) ∧
    c.doneCount + c.dupeCount + c.skipCount + c.errCount = total ∧
    (∀ file c0 s0, IncrementsOne c0 (loopBody W fl file c0 s0).1) := by
  obtain ⟨files, s1, setup, s3, hg, hrun, -, -, -, -, -, htr⟩ :=
    main_full W fl s (Or.inl ⟨Event.Logout, by simp [h], rfl⟩)
  rw [htr] at h
  obtain ⟨hn, hc, -⟩ := summary_inj _ _ _ _ _ _ h
  refine ⟨hrun, ⟨files, by rw [hg], hn.symm⟩, ?_, fun file c0 s0 =>
    loopBody_incrementsOne W fl file c0 s0⟩
  have := loop_sum W fl files ⟨0, 0, 0, 0, 0⟩ s3
  rw [← hc, ← hn]
  simpa using this

/-- C1 at the scenario of the specification: two files, one uploaded and one
skipped, and the run reaches the summary. -/
theorem summary_counters_sum_to_total_witness :
    (main (scriptWorld scenario) runFlags ()).trace =
      (main (scriptWorld scenario) runFlags ()).trace.take 33 ++ summary 2 ⟨1, 0, 1, 0, 0⟩ ++
        [Event.Logout] ∧
    (1 : Nat) + 0 + 1 + 0 = 2 :=
  ⟨by decide, (summary_counters_sum_to_total (scriptWorld scenario) runFlags ()
    ((main (scriptWorld scenario) runFlags ()).trace.take 33) 2 ⟨1, 0, 1, 0, 0⟩
    (by decide)).2.2.1⟩

/-- C2: when the local read and the remote fetch succeed and the page has at
least one revision, the file is classified skipped exactly when the trimmed
local content equals the trimmed body of the first revision, and duplicate
exactly when they differ; it is one of the two and never both. -/
theorem existing_page_skipped_iff_trim_equal (W : World σ) (fl : Flags) (file : String)
    (c : Counters) (s : σ) (content : String) (s1 : σ) (page : Page) (s3 : σ)
    (rev : Revision) (rest : List Revision)
    (hread : W.ReadFile file s = (Res.ok content, s1))
    (hfetch : W.Read (TrimSuffix file fl.extension) (W.Sleep fl.pause s1) = (Res.ok page, s3))
    (hrev : page.Revisions = rev :: rest) :
    (Skipped file c (loopBody W fl file c s).1 (loopBody W fl file c s).2.1 ↔
      TrimSpace content = TrimSpace rev.Body) ∧
    (Duplicate file c (loopBody W fl file c s).1 (loopBody W fl file c s).2.1 ↔
      TrimSpace content ≠ TrimSpace rev.Body) ∧
    (Skipped file c (loopBody W fl file c s).1 (loopBody W fl file c s).2.1 ∨
      Duplicate file c (loopBody W fl file c s).1 (loopBody W fl file c s).2.1) ∧
    ¬ (Skipped file c (loopBody W fl file c s).1 (loopBody W fl file c s).2.1 ∧
      Duplicate file c (loopBody W fl file c s).1 (loopBody W fl file c s).2.1) := by
  have hpage : page = ⟨rev :: rest⟩ := by
    cases page; simp_all
  subst hpage
  refine loopBody_elim W fl file c s
    (fun r => (Skipped file c r.1 r.2.1 ↔ TrimSpace content = TrimSpace rev.Body) ∧
      (Duplicate file c r.1 r.2.1 ↔ TrimSpace content ≠ TrimSpace rev.Body) ∧
      (Skipped file c r.1 r.2.1 ∨ Duplicate file c r.1 r.2.1) ∧
      ¬ (Skipped file c r.1 r.2.1 ∧ Duplicate file c r.1 r.2.1)) ?_ ?_ ?_ ?_ ?_ ?_
  · intro e s1a h1
    rw [hread] at h1; simp at h1
  · intro content1 s1a e s3a h1 h2
    rw [hread] at h1
    simp only [Prod.mk.injEq, Res.ok.injEq] at h1
    obtain ⟨h1a, h1b⟩ := h1
    subst h1a h1b
    rw [hfetch] at h2; simp at h2
  · intro content1 s1a s3a e s4 h1 h2 _
    rw [hread] at h1
    simp only [Prod.mk.injEq, Res.ok.injEq] at h1
    obtain ⟨h1a, h1b⟩ := h1
    subst h1a h1b
    rw [hfetch] at h2; simp at h2
  · intro content1 s1a s3a s4 h1 h2 _
    rw [hread] at h1
    simp only [Prod.mk.injEq, Res.ok.injEq] at h1
    obtain ⟨h1a, h1b⟩ := h1
    subst h1a h1b
    rw [hfetch] at h2; simp at h2
  · intro content1 s1a rev1 rest1 s3a h1 h2 ht
    rw [hread] at h1
    simp only [Prod.mk.injEq, Res.ok.injEq] at h1
    obtain ⟨h1a, h1b⟩ := h1
    subst h1a h1b
    rw [hfetch] at h2
    simp only [Prod.mk.injEq, Res.ok.injEq, Page.mk.injEq, List.cons.injEq] at h2
    obtain ⟨⟨h2a, h2b⟩, h2c⟩ := h2
    subst h2a h2b h2c
    have ho := moveFile_outcome W file skipDir { c with skipCount := c.skipCount + 1 } s3
    have hm := moveFile_moves W file skipDir { c with skipCount := c.skipCount + 1 } s3
    simp only [SameOutcome] at ho
    have hS : Skipped file c (moveFile W file skipDir { c with skipCount := c.skipCount + 1 } s3).1
        ([Event.ReadFile file (Res.ok content), Event.Sleep fl.pause,
          Event.Read (TrimSuffix file fl.extension) (Res.ok ⟨rev :: rest⟩),
          Event.Log "Number of revisions: %d\n" [Arg.int ((rev :: rest).length : Nat)],
          Event.Log "Skipped \"%s\", because it\x27s already in the wiki.\n"
            [Arg.str (TrimSuffix file fl.extension)]] ++
          (moveFile W file skipDir { c with skipCount := c.skipCount + 1 } s3).2.1) := by
      refine ⟨ho.2.2.1, ho.2.1, ho.1, ho.2.2.2, ?_⟩
      rw [moves_append, hm]; simp [moves]
    have hD : ¬ Duplicate file c
        (moveFile W file skipDir { c with skipCount := c.skipCount + 1 } s3).1
        ([Event.ReadFile file (Res.ok content), Event.Sleep fl.pause,
          Event.Read (TrimSuffix file fl.extension) (Res.ok ⟨rev :: rest⟩),
          Event.Log "Number of revisions: %d\n" [Arg.int ((rev :: rest).length : Nat)],
          Event.Log "Skipped \"%s\", because it\x27s already in the wiki.\n"
            [Arg.str (TrimSuffix file fl.extension)]] ++
          (moveFile W file skipDir { c with skipCount := c.skipCount + 1 } s3).2.1) := by
      intro hd
      have := hd.2.1
      rw [ho.2.2.1] at this
      simp at this
    exact ⟨⟨fun _ => ht, fun _ => hS⟩, ⟨fun h => absurd h hD, fun h => absurd ht h⟩,
      Or.inl hS, fun h => hD h.2⟩
  · intro content1 s1a rev1 rest1 s3a h1 h2 ht
    rw [hread] at h1
    simp only [Prod.mk.injEq, Res.ok.injEq] at h1
    obtain ⟨h1a, h1b⟩ := h1
    subst h1a h1b
    rw [hfetch] at h2
    simp only [Prod.mk.injEq, Res.ok.injEq, Page.mk.injEq, List.cons.injEq] at h2
    obtain ⟨⟨h2a, h2b⟩, h2c⟩ := h2
    subst h2a h2b h2c
    have ho := moveFile_outcome W file dupeDir { c with dupeCount := c.dupeCount + 1 } s3
    have hm := moveFile_moves W file dupeDir { c with dupeCount := c.dupeCount + 1 } s3
    simp only [SameOutcome] at ho
    have hD : Duplicate file c
        (moveFile W file dupeDir { c with dupeCount := c.dupeCount + 1 } s3).1
        ([Event.ReadFile file (Res.ok content), Event.Sleep fl.pause,
          Event.Read (TrimSuffix file fl.extension) (Res.ok ⟨rev :: rest⟩),
          Event.Log "Number of revisions: %d\n" [Arg.int ((rev :: rest).length : Nat)],
          Event.Log "Duplicate page \"%s\" with different content.\n"
            [Arg.str (TrimSuffix file fl.extension)]] ++
          (moveFile W file dupeDir { c with dupeCount := c.dupeCount + 1 } s3).2.1) := by
      refine ⟨ho.2.1, ho.2.2.1, ho.1, ho.2.2.2, ?_⟩
      rw [moves_append, hm]; simp [moves]
    have hS : ¬ Skipped file c
        (moveFile W file dupeDir { c with dupeCount := c.dupeCount + 1 } s3).1
        ([Event.ReadFile file (Res.ok content), Event.Sleep fl.pause,
          Event.Read (TrimSuffix file fl.extension) (Res.ok ⟨rev :: rest⟩),
          Event.Log "Number of revisions: %d\n" [Arg.int ((rev :: rest).length : Nat)],
          Event.Log "Duplicate page \"%s\" with different content.\n"
            [Arg.str (TrimSuffix file fl.extension)]] ++
          (moveFile W file dupeDir { c with dupeCount := c.dupeCount + 1 } s3).2.1) := by
      intro hs
      have := hs.2.1
      rw [ho.2.1] at this
      simp at this
    exact ⟨⟨fun h => absurd h hS, fun h => absurd h ht⟩, ⟨fun _ => ht, fun _ => hD⟩,
      Or.inr hD, fun h => hS h.1⟩

/-- C2 at the two examples of the specification: local "world" against remote
"world " is skipped, local "new content" against remote "old content" is
duplicate. -/
theorem existing_page_skipped_iff_trim_equal_witness :
    (TrimSpace "world" = TrimSpace "world " ∧
      Skipped "B.txt" ⟨0, 0, 0, 0, 0⟩
        (loopBody (scriptWorld scenario) runFlags "B.txt" ⟨0, 0, 0, 0, 0⟩ ()).1
        (loopBody (scriptWorld scenario) runFlags "B.txt" ⟨0, 0, 0, 0, 0⟩ ()).2.1) ∧
    (TrimSpace "new content" ≠ TrimSpace "old content" ∧
      Duplicate "C.txt" ⟨0, 0, 0, 0, 0⟩
        (loopBody (scriptWorld conflict) runFlags "C.txt" ⟨0, 0, 0, 0, 0⟩ ()).1
        (loopBody (scriptWorld conflict) runFlags "C.txt" ⟨0, 0, 0, 0, 0⟩ ()).2.1) :=
  ⟨⟨by decide,
    (existing_page_skipped_iff_trim_equal (scriptWorld scenario) runFlags "B.txt" ⟨0, 0, 0, 0, 0⟩ ()
      "world" () ⟨[⟨"world "⟩]⟩ () ⟨"world "⟩ [] (by decide) (by decide) rfl).1.mpr (by decide)⟩,
   ⟨by decide,
    (existing_page_skipped_iff_trim_equal (scriptWorld conflict) runFlags "C.txt" ⟨0, 0, 0, 0, 0⟩ ()
      "new content" () ⟨[⟨"old content"⟩]⟩ () ⟨"old content"⟩ [] (by decide) (by decide)
      rfl).2.1.mpr (by decide)⟩⟩

theorem edits_append (a b : List Event) : edits (a ++ b) = edits a ++ edits b := by
  simp [edits, List.filterMap_append]

theorem moveFile_edits (W : World σ) (file dir : String) (c : Counters) (s : σ) :
    edits (moveFile W file dir c s).2.1 = [] := by
  refine moveFile_elim W file dir c s (fun r => edits r.2.1 = []) ?_ ?_ <;>
    intros <;> simp [edits]

/-- C3: when the local read and the remote fetch succeed and the page has no
revision, exactly one edit is submitted, with the extension-stripped file name
as title, the configured summary and the untrimmed content as text; the file
ends as uploaded (moved to `done/`) exactly when that edit succeeds and as an
error exactly when it fails, so the answer of the edit alone decides the
outcome; it is never skipped and never duplicate. -/
theorem new_page_uploaded_or_error (W : World σ) (fl : Flags) (file : String)
    (c : Counters) (s : σ) (content : String) (s1 : σ) (page : Page) (s3 : σ)
    (hread : W.ReadFile file s = (Res.ok content, s1))
    (hfetch : W.Read (TrimSuffix file fl.extension) (W.Sleep fl.pause s1) = (Res.ok page, s3))
    (hrev : page.Revisions = []) :
    edits (loopBody W fl file c s).2.1 =
      [(⟨TrimSuffix file fl.extension, fl.summary, content⟩,
        (W.Edit ⟨TrimSuffix file fl.extension, fl.summary, content⟩ s3).1)] ∧
    (Uploaded file c (loopBody W fl file c s).1 (loopBody W fl file c s).2.1 ↔
      (W.Edit ⟨TrimSuffix file fl.extension, fl.summary, content⟩ s3).1 = none) ∧
    (Errored c (loopBody W fl file c s).1 (loopBody W fl file c s).2.1 ↔
      (W.Edit ⟨TrimSuffix file fl.extension, fl.summary, content⟩ s3).1 ≠ none) ∧
    ¬ Skipped file c (loopBody W fl file c s).1 (loopBody W fl file c s).2.1 ∧
    ¬ Duplicate file c (loopBody W fl file c s).1 (loopBody W fl file c s).2.1 := by
  have hpage : page = ⟨[]⟩ := by
    cases page; simp_all
  subst hpage
  refine loopBody_elim W fl file c s
    (fun r => edits r.2.1 = [(⟨TrimSuffix file fl.extension, fl.summary, content⟩,
        (W.Edit ⟨TrimSuffix file fl.extension, fl.summary, content⟩ s3).1)] ∧
      (Uploaded file c r.1 r.2.1 ↔
        (W.Edit ⟨TrimSuffix file fl.extension, fl.summary, content⟩ s3).1 = none) ∧
      (Errored c r.1 r.2.1 ↔
        (W.Edit ⟨TrimSuffix file fl.extension, fl.summary, content⟩ s3).1 ≠ none) ∧
      ¬ Skipped file c r.1 r.2.1 ∧ ¬ Duplicate file c r.1 r.2.1) ?_ ?_ ?_ ?_ ?_ ?_
  · intro e s1a h1
    rw [hread] at h1; simp at h1
  · intro content1 s1a e s3a h1 h2
    rw [hread] at h1
    simp only [Prod.mk.injEq, Res.ok.injEq] at h1
    obtain ⟨h1a, h1b⟩ := h1
    subst h1a h1b
    rw [hfetch] at h2; simp at h2
  · intro content1 s1a s3a e s4 h1 h2 h3
    rw [hread] at h1
    simp only [Prod.mk.injEq, Res.ok.injEq] at h1
    obtain ⟨h1a, h1b⟩ := h1
    subst h1a h1b
    rw [hfetch] at h2
    simp only [Prod.mk.injEq, true_and] at h2
    subst h2
    rw [h3]
    simp [edits, Uploaded, Errored, Skipped, Duplicate, moves]
  · intro content1 s1a s3a s4 h1 h2 h3
    rw [hread] at h1
    simp only [Prod.mk.injEq, Res.ok.injEq] at h1
    obtain ⟨h1a, h1b⟩ := h1
    subst h1a h1b
    rw [hfetch] at h2
    simp only [Prod.mk.injEq, true_and] at h2
    subst h2
    rw [h3]
    have ho := moveFile_outcome W file doneDir { c with doneCount := c.doneCount + 1 } s4
    have hm := moveFile_moves W file doneDir { c with doneCount := c.doneCount + 1 } s4
    have he := moveFile_edits W file doneDir { c with doneCount := c.doneCount + 1 } s4
    simp only [SameOutcome] at ho
    refine ⟨?_, ?_, ?_, ?_, ?_⟩
    · rw [edits_append, he]; simp [edits]
    · simp only [iff_true]
      refine ⟨ho.1, ho.2.1, ho.2.2.1, ho.2.2.2, ?_⟩
      rw [moves_append, hm]; simp [moves]
    · simp only [ne_eq, not_true_eq_false, iff_false]
      intro h
      have := h.1
      rw [ho.2.2.2] at this
      simp at this
    · intro h
      have := h.1
      rw [ho.2.2.1] at this
      simp at this
    · intro h
      have := h.1
      rw [ho.2.1] at this
      simp at this
  · intro content1 s1a rev1 rest1 s3a h1 h2 _
    rw [hread] at h1
    simp only [Prod.mk.injEq, Res.ok.injEq] at h1
    obtain ⟨h1a, h1b⟩ := h1
    subst h1a h1b
    rw [hfetch] at h2; simp at h2
  · intro content1 s1a rev1 rest1 s3a h1 h2 _
    rw [hread] at h1
    simp only [Prod.mk.injEq, Res.ok.injEq] at h1
    obtain ⟨h1a, h1b⟩ := h1
    subst h1a h1b
    rw [hfetch] at h2; simp at h2

/-- C3 at the scenario of the specification: page `A` does not exist, `A.txt` is
uploaded with title "A" and text "hello", and moved to `done/`. -/
theorem new_page_uploaded_or_error_witness :
    edits (loopBody (scriptWorld scenario) runFlags "A.txt" ⟨0, 0, 0, 0, 0⟩ ()).2.1 =
      [(⟨"A", "Bulk upload by wikipush", "hello"⟩, none)] ∧
    Uploaded "A.txt" ⟨0, 0, 0, 0, 0⟩
      (loopBody (scriptWorld scenario) runFlags "A.txt" ⟨0, 0, 0, 0, 0⟩ ()).1
      (loopBody (scriptWorld scenario) runFlags "A.txt" ⟨0, 0, 0, 0, 0⟩ ()).2.1 :=
  ⟨(new_page_uploaded_or_error (scriptWorld scenario) runFlags "A.txt" ⟨0, 0, 0, 0, 0⟩ ()
      "hello" () ⟨[]⟩ () (by decide) (by decide) rfl).1,
   (new_page_uploaded_or_error (scriptWorld scenario) runFlags "A.txt" ⟨0, 0, 0, 0, 0⟩ ()
      "hello" () ⟨[]⟩ () (by decide) (by decide) rfl).2.1.mpr (by decide)⟩

theorem landed_eq_nil (tr : List Event) (file : String)
    (h : ∀ e ∈ tr, e.movesFile file = false) : landed tr file = [] := by
  unfold landed
  rw [List.filterMap_eq_nil_iff]
  intro e he
  have hm := h e he
  cases e with
  | Rename old dir name err =>
    cases err with
    | none =>
      have hne : ¬ old = file := by simpa [Event.movesFile] using hm
      simp [hne]
    | some _ => rfl
  | _ => rfl

theorem movesFile_of_isSetup (e : Event) (file : String) (h : e.isSetup = true) :
    e.movesFile file = false := by
  cases e <;> simp_all [Event.isSetup, Event.movesFile]

theorem summary_events (n : Nat) (c : Counters) :
    ∀ e ∈ summary n c, e.isSetup = true ∧ e.isFatal = false ∧ e.isLoginOk = false := by
  intro e he
  unfold summary at he
  by_cases h : c.moveErrCount > 0 <;> simp [h] at he <;>
    rcases he with he | he | he | he | he | he <;> try (subst he; simp [Event.isSetup, Event.isFatal, Event.isLoginOk])
  rcases he with he | he <;> subst he <;> simp [Event.isSetup, Event.isFatal, Event.isLoginOk]

/-- C4, as the code has it: in a completed run over distinct files, the trace
splits around the iteration of each globbed file, no move of that file happens
outside its iteration (so where the file ends is decided there), and inside
it: when none of the read, fetch and edit steps failed, exactly one move is
attempted, into one of `done/`, `dupes/`, `skipped/`, and the file is in
exactly that directory when the move succeeded and in none when it failed;
when one of the three steps failed no move is attempted. -/
theorem file_ends_in_one_dir_when_moved (W : World σ) (fl : Flags) (s : σ)
    (pre : List Event) (total : Nat) (c : Counters)
    (h : (main W fl s).trace = pre ++ summary total c ++ [Event.Logout])
    (files : List String) (s1 : σ)
    (hg : W.Glob ("*" ++ fl.extension) s = (Res.ok files, s1)) (hnd : files.Nodup)
    (file : String) (hf : file ∈ files) :
    ∃ a seg b,
      (main W fl s).trace = a ++ seg ++ b ∧
      (∃ c0 s0, seg = (loopBody W fl file c0 s0).2.1) ∧
      (∀ e ∈ a ++ b, e.movesFile file = false) ∧
      landed (main W fl s).trace file = landed seg file ∧
      FileFate file seg := by
  obtain ⟨files2, s2, setup, s3, hg2, -, -, -, hs, -, -, htr⟩ :=
    main_full W fl s (Or.inl ⟨Event.Logout, by simp [h], rfl⟩)
  rw [hg] at hg2
  simp only [Prod.mk.injEq, Res.ok.injEq] at hg2
  obtain ⟨hfiles, -⟩ := hg2
  subst hfiles
  obtain ⟨a, seg, b, hl, ⟨c0, s0, hseg⟩, hab⟩ :=
    loop_file_segment W fl files ⟨0, 0, 0, 0, 0⟩ s3 hnd file hf
  have hout : ∀ e ∈ (setup ++
      [Event.Stdout "%d files will be uploaded.\n" [Arg.int files.length],
       Event.Stdout "This will take at least %s with the current throttle setting.\n"
         [Arg.dur (wrapInt64 (fl.pause * (files.length : Int)))]] ++ a) ++
      (b ++ summary files.length (loop W fl files ⟨0, 0, 0, 0, 0⟩ s3).1 ++ [Event.Logout]),
      e.movesFile file = false := by
    intro e he
    simp only [List.append_assoc, List.mem_append, List.mem_cons, List.mem_singleton,
      List.not_mem_nil, or_false] at he
    rcases he with he | (he | he) | he | he | he | he
    · exact movesFile_of_isSetup e file (hs e he).1
    · subst he; rfl
    · subst he; rfl
    · exact (hab e (List.mem_append.mpr (Or.inl he))).2
    · exact (hab e (List.mem_append.mpr (Or.inr he))).2
    · exact movesFile_of_isSetup e file (summary_events _ _ e he).1
    · subst he; rfl
  have htr2 : (main W fl s).trace = (setup ++
      [Event.Stdout "%d files will be uploaded.\n" [Arg.int files.length],
       Event.Stdout "This will take at least %s with the current throttle setting.\n"
         [Arg.dur (wrapInt64 (fl.pause * (files.length : Int)))]] ++ a) ++ seg ++
      (b ++ summary files.length (loop W fl files ⟨0, 0, 0, 0, 0⟩ s3).1 ++ [Event.Logout]) := by
    rw [htr, hl]; simp only [List.append_assoc]
  refine ⟨_, seg, _, htr2, ⟨c0, s0, hseg⟩, hout, ?_, ?_⟩
  · rw [htr2, landed_append, landed_append,
      landed_eq_nil _ file (fun e he => hout e (List.mem_append.mpr (Or.inl he))),
      landed_eq_nil _ file (fun e he => hout e (List.mem_append.mpr (Or.inr he)))]
    simp
  · rw [hseg]; exact loopBody_fate W fl file c0 s0

/-- C4 at the scenario of the specification, where the run completes: `A.txt`
ends in `done/` and `B.txt` in `skipped/`. -/
theorem file_ends_in_one_dir_when_moved_witness :
    (landed (main (scriptWorld scenario) runFlags ()).trace "A.txt" = ["done"] ∧
      landed (main (scriptWorld scenario) runFlags ()).trace "B.txt" = ["skipped"]) ∧
    ∃ a seg b,
      (main (scriptWorld scenario) runFlags ()).trace = a ++ seg ++ b ∧
      (∃ c0 s0, seg = (loopBody (scriptWorld scenario) runFlags "A.txt" c0 s0).2.1) ∧
      (∀ e ∈ a ++ b, e.movesFile "A.txt" = false) ∧
      landed (main (scriptWorld scenario) runFlags ()).trace "A.txt" = landed seg "A.txt" ∧
      FileFate "A.txt" seg :=
  ⟨by decide, file_ends_in_one_dir_when_moved (scriptWorld scenario) runFlags ()
    ((main (scriptWorld scenario) runFlags ()).trace.take 33) 2 ⟨1, 0, 1, 0, 0⟩ (by decide)
    ["A.txt", "B.txt"] () (by decide) (by decide) "A.txt" (by decide)⟩

/-- C4 as stated fails: on a file system that refuses the moves the run
completes, no read, fetch or edit fails, `A.txt` is uploaded, and yet `A.txt`
is in none of the output directories at the end of the run. -/
theorem file_ends_in_one_dir_counterexample :
    (main (scriptWorld stuckMove) runFlags ()).trace =
      (main (scriptWorld stuckMove) runFlags ()).trace.take 35 ++ summary 2 ⟨1, 0, 1, 0, 2⟩ ++
        [Event.Logout] ∧
    (main (scriptWorld stuckMove) runFlags ()).trace.any Event.isFailedStep = false ∧
    landed (main (scriptWorld stuckMove) runFlags ()).trace "A.txt" = [] ∧
    ¬ ∃ d ∈ outputDirs, landed (main (scriptWorld stuckMove) runFlags ()).trace "A.txt" = [d] := by
  refine ⟨by decide, by decide, by decide, ?_⟩
  rintro ⟨d, -, hd⟩
  have h0 : landed (main (scriptWorld stuckMove) runFlags ()).trace "A.txt" = [] := by decide
  rw [h0] at hd
  simp at hd

/-- C5, as the code has it: without `-run`, whatever the other flags and the
matching files, the only world operation is the glob (the final state is the
state after the glob) and the trace is the glob followed, when the glob
failed, by the fatal log of that error, and otherwise by the printed count
and, when at least one file matches, the printed hint to use `-run`. No
directory is created, no file is read or moved, no credential is prompted for
and no client call is made. -/
theorem dry_run_only_globs_and_prints (W : World σ) (fl : Flags) (s : σ)
    (hrun : fl.run = false) :
    (main W fl s).state = (W.Glob ("*" ++ fl.extension) s).2 ∧
    (main W fl s).trace =
      Event.Glob ("*" ++ fl.extension) (W.Glob ("*" ++ fl.extension) s).1 ::
        (match (W.Glob ("*" ++ fl.extension) s).1 with
         | Res.fail e => [Event.Fatal "Error reading filenames: %s" [Arg.err e]]
         | Res.ok files =>
           Event.Stdout "%d files would be uploaded.\n" [Arg.int files.length] ::
             (if files.length > 0 then
               [Event.Stdout "Start wikipush with \x60-run\x27 flag to perform the upload.\n" []]
              else [])) ∧
    (∀ e ∈ (main W fl s).trace, e.isMkdir = false ∧ e.isReadFile = false ∧ e.isMove = false ∧
      e.isPrompt = false ∧ e.isRemote = false) := by
  refine main_elim W fl s
    (fun r => r.state = (W.Glob ("*" ++ fl.extension) s).2 ∧
      r.trace = Event.Glob ("*" ++ fl.extension) (W.Glob ("*" ++ fl.extension) s).1 ::
        (match (W.Glob ("*" ++ fl.extension) s).1 with
         | Res.fail e => [Event.Fatal "Error reading filenames: %s" [Arg.err e]]
         | Res.ok files =>
           Event.Stdout "%d files would be uploaded.\n" [Arg.int files.length] ::
             (if files.length > 0 then
               [Event.Stdout "Start wikipush with \x60-run\x27 flag to perform the upload.\n" []]
              else [])) ∧
      (∀ e ∈ r.trace, e.isMkdir = false ∧ e.isReadFile = false ∧ e.isMove = false ∧
        e.isPrompt = false ∧ e.isRemote = false)) ?_ ?_ ?_ ?_ ?_ ?_ ?_
  · intro e s1 hg
    rw [hg]
    simp [Event.isMkdir, Event.isReadFile, Event.isMove, Event.isPrompt, Event.isRemote]
  · intro files s1 hg _
    rw [hg]
    by_cases h : files.length > 0 <;>
      simp [h, Event.isMkdir, Event.isReadFile, Event.isMove, Event.isPrompt, Event.isRemote]
  · intro _ _ _ h; rw [hrun] at h; simp at h
  · intro _ _ _ h; rw [hrun] at h; simp at h
  · intro _ _ _ h; rw [hrun] at h; simp at h
  · intro _ _ _ h; rw [hrun] at h; simp at h
  · intro _ _ _ h; rw [hrun] at h; simp at h

/-- C5 at the scenario of the specification, run without `-run`. -/
theorem dry_run_only_globs_and_prints_witness :
    (main (scriptWorld scenario) dryFlags ()).trace =
      [Event.Glob "*.txt" (Res.ok ["A.txt", "B.txt"]),
       Event.Stdout "%d files would be uploaded.\n" [Arg.int 2],
       Event.Stdout "Start wikipush with \x60-run\x27 flag to perform the upload.\n" []] :=
  (dry_run_only_globs_and_prints (scriptWorld scenario) dryFlags () rfl).2.1.trans (by decide)

/-- C5 as stated fails: in a dry run with matching files the program has an
effect that is neither the glob nor the printed count: it prints the hint to
use `-run`. -/
theorem dry_run_counterexample :
    dryFlags.run = false ∧
    ¬ ∀ e ∈ (main (scriptWorld scenario) dryFlags ()).trace,
      (∃ pattern res, e = Event.Glob pattern res) ∨
      (∃ n, e = Event.Stdout "%d files would be uploaded.\n" [Arg.int n]) := by
  refine ⟨rfl, fun h => ?_⟩
  have hmem : Event.Stdout "Start wikipush with \x60-run\x27 flag to perform the upload.\n" [] ∈
      (main (scriptWorld scenario) dryFlags ()).trace := by decide
  rcases h _ hmem with ⟨_, _, h1⟩ | ⟨_, h1⟩
  · simp at h1
  · simp at h1

/-- C6, as the code has it: with `-run`, an empty URL and at least one matching
file, the run is exactly the glob followed by the fatal missing-URL log: it
ends fatally, the only world operation is the glob, no directory is created,
nothing is prompted for and no client call is made. -/
theorem missing_url_is_fatal (W : World σ) (fl : Flags) (s : σ) (files : List String) (s1 : σ)
    (hrun : fl.run = true) (hurl : fl.url = "")
    (hg : W.Glob ("*" ++ fl.extension) s = (Res.ok files, s1)) (hne : files ≠ []) :
    (main W fl s).exit = Exit.fatal ∧ (main W fl s).state = s1 ∧
    (main W fl s).trace = [Event.Glob ("*" ++ fl.extension) (Res.ok files), Event.Fatal
      "Error: Missing URL: Please specify your MediaWiki API URL using the \x60-url\x27 flag." []] ∧
    (∀ e ∈ (main W fl s).trace, e.isMkdir = false ∧ e.isPrompt = false ∧ e.isRemote = false) := by
  have hlen : files.length ≠ 0 := by
    intro h; exact hne (List.length_eq_zero.mp h)
  refine main_elim W fl s
    (fun r => r.exit = Exit.fatal ∧ r.state = s1 ∧
      r.trace = [Event.Glob ("*" ++ fl.extension) (Res.ok files), Event.Fatal
        "Error: Missing URL: Please specify your MediaWiki API URL using the \x60-url\x27 flag." []] ∧
      (∀ e ∈ r.trace, e.isMkdir = false ∧ e.isPrompt = false ∧ e.isRemote = false))
    ?_ ?_ ?_ ?_ ?_ ?_ ?_
  · intro e s2 h; rw [hg] at h; simp at h
  · intro _ _ _ h; rw [hrun] at h; simp at h
  · intro files2 s2 h _ hl
    rw [hg] at h
    simp only [Prod.mk.injEq, Res.ok.injEq] at h
    rw [← h.1] at hl
    exact absurd hl hlen
  · intro files2 s2 h _ _ _
    rw [hg] at h
    simp only [Prod.mk.injEq, Res.ok.injEq] at h
    obtain ⟨h1, h2⟩ := h
    subst h1 h2
    simp [Event.isMkdir, Event.isPrompt, Event.isRemote]
  · intro _ _ _ _ _ h; exact absurd hurl h
  · intro _ _ _ _ _ h; exact absurd hurl h
  · intro _ _ _ _ _ h; exact absurd hurl h

/-- C6 at the scenario of the specification, run with `-run` and no `-url`. -/
theorem missing_url_is_fatal_witness :
    (main (scriptWorld scenario) noUrlFlags ()).exit = Exit.fatal ∧
    (main (scriptWorld scenario) noUrlFlags ()).trace =
      [Event.Glob "*.txt" (Res.ok ["A.txt", "B.txt"]), Event.Fatal
        "Error: Missing URL: Please specify your MediaWiki API URL using the \x60-url\x27 flag." []] :=
  ⟨(missing_url_is_fatal (scriptWorld scenario) noUrlFlags () ["A.txt", "B.txt"] () rfl rfl
      (by decide) (by decide)).1,
   (missing_url_is_fatal (scriptWorld scenario) noUrlFlags () ["A.txt", "B.txt"] () rfl rfl
      (by decide) (by decide)).2.2.1.trans (by decide)⟩

/-- C6 as stated fails: with `-run`, an empty URL and no matching file the run
does not end fatally; it prints that no files were found and returns. -/
theorem missing_url_counterexample :
    noUrlFlags.run = true ∧ noUrlFlags.url = "" ∧
    (main (scriptWorld noFiles) noUrlFlags ()).exit = Exit.returned ∧
    (main (scriptWorld noFiles) noUrlFlags ()).trace =
      [Event.Glob "*.txt" (Res.ok []), Event.Stdout "No files found.\n" []] ∧
    (main (scriptWorld noFiles) noUrlFlags ()).trace.any Event.isFatal = false := by
  refine ⟨rfl, rfl, by decide, by decide, by decide⟩

theorem isDirEmpty_true_iff (W : World σ) (name : String) (s : σ) :
    (isDirEmpty W name s).1.1 = true ↔
      (W.Open name s).1 = none ∧
      (W.Readdirnames name 1 (W.Open name s).2).1.2 = some Error.EOF := by
  unfold isDirEmpty
  rcases W.Open name s with ⟨_ | e, s1⟩
  · simp only
    rcases W.Readdirnames name 1 s1 with ⟨⟨names, _ | (_ | msg)⟩, s2⟩ <;> simp
  · simp

theorem flags_of_isDirCheck (e : Event) (h : e.isDirCheck = true) :
    e.isPrompt = false ∧ e.isRemote = false ∧ e.isMove = false ∧ e.isReadFile = false := by
  cases e <;> simp_all [Event.isDirCheck, Event.isPrompt, Event.isRemote, Event.isMove,
    Event.isReadFile]

/-- C7: in a run with `-run`, at least one matching file and a non-empty URL,
if reading one entry from one of `done/`, `dupes/`, `skipped/` never answers
end-of-directory (the directory holds an entry), the run ends fatally, its
last event is the fatal log, and it contains no credential prompt, no client
call (so no login, read or edit), no file read and no move. The directories
are created and checked in the order done, dupes, skipped; a `Readdirnames`
answer other than end-of-directory is followed only by the `Close` of that
directory and the fatal log, which names that directory when an entry was
read. `isDirEmpty` answers true only when the directory opens and reading one
entry answers end-of-directory. -/
theorem nonempty_output_dir_aborts (W : World σ) (fl : Flags) (s : σ) (files : List String)
    (s1 : σ) (hrun : fl.run = true)
    (hg : W.Glob ("*" ++ fl.extension) s = (Res.ok files, s1)) (hne : files ≠ [])
    (hurl : fl.url ≠ "") (d : String) (hd : d ∈ outputDirs)
    (hentry : ∀ s2, (W.Readdirnames d 1 s2).1.2 ≠ some Error.EOF) :
    (main W fl s).exit = Exit.fatal ∧
    (∃ t f a, (main W fl s).trace = t ++ [Event.Fatal f a]) ∧
    (∀ e ∈ (main W fl s).trace, e.isPrompt = false ∧ e.isRemote = false ∧ e.isMove = false ∧
      e.isReadFile = false) ∧
    mkdirs (main W fl s).trace <+: outputDirs ∧
    EntryAborts (main W fl s).trace ∧
    (∀ name s0, (isDirEmpty W name s0).1.1 = true ↔
      (W.Open name s0).1 = none ∧
      (W.Readdirnames name 1 (W.Open name s0).2).1.2 = some Error.EOF) := by
  have hlen : files.length ≠ 0 := by
    intro h; exact hne (List.length_eq_zero.mp h)
  refine main_elim W fl s
    (fun r => r.exit = Exit.fatal ∧ (∃ t f a, r.trace = t ++ [Event.Fatal f a]) ∧
      (∀ e ∈ r.trace, e.isPrompt = false ∧ e.isRemote = false ∧ e.isMove = false ∧
        e.isReadFile = false) ∧
      mkdirs r.trace <+: outputDirs ∧ EntryAborts r.trace ∧
      (∀ name s0, (isDirEmpty W name s0).1.1 = true ↔
        (W.Open name s0).1 = none ∧
        (W.Readdirnames name 1 (W.Open name s0).2).1.2 = some Error.EOF))
    ?_ ?_ ?_ ?_ ?_ ?_ ?_
  · intro e s2 h; rw [hg] at h; simp at h
  · intro _ _ _ h; rw [hrun] at h; simp at h
  · intro files2 s2 h _ hl
    rw [hg] at h
    simp only [Prod.mk.injEq, Res.ok.injEq] at h
    rw [← h.1] at hl
    exact absurd hl hlen
  · intro _ _ _ _ _ h; exact absurd h hurl
  · intro files2 s2 _ _ _ _ hc
    obtain ⟨ha, hb, hcc, -, he⟩ := checkDirs_spec W s2
    obtain ⟨t, f, a, ht⟩ := he hc
    refine ⟨rfl, ⟨Event.Glob ("*" ++ fl.extension) (Res.ok files2) :: t, f, a, by simp [ht]⟩,
      ?_, ?_, entryAborts_cons _ _ rfl hcc, isDirEmpty_true_iff W⟩
    · intro e he
      rcases List.mem_cons.mp he with h | h
      · subst h; simp [Event.isPrompt, Event.isRemote, Event.isMove, Event.isReadFile]
      · exact flags_of_isDirCheck e (ha e h)
    · have : mkdirs (Event.Glob ("*" ++ fl.extension) (Res.ok files2) :: (checkDirs W s2).2.1) =
          mkdirs (checkDirs W s2).2.1 := by simp [mkdirs]
      simp only [this]
      exact hb
  · intro _ s2 _ _ _ _ hc _
    rw [checkDirs_entry W s2 d hd hentry] at hc
    simp at hc
  · intro _ s2 _ _ _ _ hc _
    rw [checkDirs_entry W s2 d hd hentry] at hc
    simp at hc

/-- C7 at the scenario of the specification with a file left over in `done/`:
the run stops at the check of `done/`, before `dupes/` and `skipped/` are
touched and before any prompt. -/
theorem nonempty_output_dir_aborts_witness :
    (main (scriptWorld leftover) runFlags ()).exit = Exit.fatal ∧
    (main (scriptWorld leftover) runFlags ()).trace =
      [Event.Glob "*.txt" (Res.ok ["A.txt", "B.txt"]),
       Event.MkdirAll "done" none, Event.Open "done" none,
       Event.Readdirnames "done" 1 ["old.txt"] none, Event.Close "done",
       Event.Fatal "Error: Please make sure the %s directory \"%s\" is empty.\n"
         [Arg.str "done", Arg.str "done"]] :=
  ⟨(nonempty_output_dir_aborts (scriptWorld leftover) runFlags () ["A.txt", "B.txt"] () rfl
      (by decide) (by decide) (by decide) "done" (by decide)
      (fun s2 => by cases s2; decide)).1,
   by decide⟩

theorem moveFile_indep (W : World σ) (r : String → String → String → σ → Option Error × σ)
    (hr : ∀ a b d s0, (r a b d s0).2 = (W.Rename a b d s0).2)
    (file dir : String) (c c2 : Counters) (s : σ) (hc : SameOutcome c c2) :
    SameOutcome (moveFile W file dir c s).1 (moveFile (withRename W r) file dir c2 s).1 ∧
    (moveFile W file dir c s).2.2 = (moveFile (withRename W r) file dir c2 s).2.2 := by
  have h1 := moveFile_outcome W file dir c s
  have h2 := moveFile_outcome (withRename W r) file dir c2 s
  unfold SameOutcome at *
  refine ⟨by omega, ?_⟩
  have h3 := hr file dir file s
  unfold moveFile
  simp only [withRename]
  rcases hw : W.Rename file dir file s with ⟨_ | _, s1⟩ <;>
    rcases hv : r file dir file s with ⟨_ | _, s2⟩ <;> simp_all

theorem loopBody_indep (W : World σ) (r : String → String → String → σ → Option Error × σ)
    (hr : ∀ a b d s0, (r a b d s0).2 = (W.Rename a b d s0).2)
    (fl : Flags) (file : String) (c c2 : Counters) (s : σ) (hc : SameOutcome c c2) :
    SameOutcome (loopBody W fl file c s).1 (loopBody (withRename W r) fl file c2 s).1 ∧
    (loopBody W fl file c s).2.2 = (loopBody (withRename W r) fl file c2 s).2.2 := by
  have hc0 := hc
  unfold SameOutcome at hc
  unfold loopBody
  simp only [withRename]
  rcases W.ReadFile file s with ⟨content | e, s1⟩
  · simp only
    rcases W.Read (TrimSuffix file fl.extension) (W.Sleep fl.pause s1) with
      ⟨⟨_ | ⟨rev, rest⟩⟩ | e, s3⟩
    · simp only
      rcases W.Edit ⟨TrimSuffix file fl.extension, fl.summary, content⟩ s3 with ⟨_ | e, s4⟩
      · exact moveFile_indep W r hr file doneDir _ _ s4 (by simp [SameOutcome, hc])
      · simp [SameOutcome, hc]
    · simp only
      by_cases ht : TrimSpace content = TrimSpace rev.Body
      · simp only [ht, if_true]
        exact moveFile_indep W r hr file skipDir _ _ s3 (by simp [SameOutcome, hc])
      · simp only [ht, if_false]
        exact moveFile_indep W r hr file dupeDir _ _ s3 (by simp [SameOutcome, hc])
    · simp [SameOutcome, hc]
  · simp [SameOutcome, hc]

theorem loop_indep (W : World σ) (r : String → String → String → σ → Option Error × σ)
    (hr : ∀ a b d s0, (r a b d s0).2 = (W.Rename a b d s0).2)
    (fl : Flags) (files : List String) (c c2 : Counters) (s : σ) (hc : SameOutcome c c2) :
    SameOutcome (loop W fl files c s).1 (loop (withRename W r) fl files c2 s).1 ∧
    (loop W fl files c s).2.2 = (loop (withRename W r) fl files c2 s).2.2 := by
  induction files generalizing c c2 s with
  | nil => exact ⟨hc, rfl⟩
  | cons file rest ih =>
    rw [loop_cons, loop_cons]
    obtain ⟨h1, h2⟩ := loopBody_indep W r hr fl file c c2 s hc
    simp only
    rw [← h2]
    exact ih _ _ _ h1

theorem checkDirs_withRename (W : World σ)
    (r : String → String → String → σ → Option Error × σ) (s : σ) :
    checkDirs (withRename W r) s = checkDirs W s := rfl

theorem connect_withRename (W : World σ)
    (r : String → String → String → σ → Option Error × σ) (fl : Flags) (s : σ) :
    connect (withRename W r) fl s = connect W fl s := rfl

/-- A trace that contains `Logout` is the trace of a full run. -/
theorem main_run_inv (W : World σ) (fl : Flags) (s : σ)
    (h : Event.Logout ∈ (main W fl s).trace) :
    ∃ files s1, W.Glob ("*" ++ fl.extension) s = (Res.ok files, s1) ∧ fl.run = true ∧
      files.length ≠ 0 ∧ fl.url ≠ "" ∧ (checkDirs W s1).1 = true ∧
      (connect W fl (checkDirs W s1).2.2).1 = true ∧
      (main W fl s).trace =
        Event.Glob ("*" ++ fl.extension) (Res.ok files) :: (checkDirs W s1).2.1 ++
          (connect W fl (checkDirs W s1).2.2).2.1 ++
          (upload W fl files (connect W fl (checkDirs W s1).2.2).2.2).1 := by
  revert h
  refine main_elim W fl s
    (fun r => Event.Logout ∈ r.trace →
      ∃ files s1, W.Glob ("*" ++ fl.extension) s = (Res.ok files, s1) ∧ fl.run = true ∧
        files.length ≠ 0 ∧ fl.url ≠ "" ∧ (checkDirs W s1).1 = true ∧
        (connect W fl (checkDirs W s1).2.2).1 = true ∧
        r.trace =
          Event.Glob ("*" ++ fl.extension) (Res.ok files) :: (checkDirs W s1).2.1 ++
            (connect W fl (checkDirs W s1).2.2).2.1 ++
            (upload W fl files (connect W fl (checkDirs W s1).2.2).2.2).1) ?_ ?_ ?_ ?_ ?_ ?_ ?_
  · intro _ _ _ h; simp at h
  · intro files _ _ _ h
    by_cases hl : files.length > 0 <;> simp [hl] at h
  · intro _ _ _ _ _ h; simp at h
  · intro _ _ _ _ _ _ h; simp at h
  · intro _ s1 _ _ _ _ _ h
    simp only [List.mem_cons] at h
    rcases h with h | h
    · simp at h
    · have := (checkDirs_spec W s1).1 _ h
      simp [Event.isDirCheck] at this
  · intro _ s1 _ _ _ _ _ _ h
    simp only [List.cons_append, List.mem_cons, List.mem_append] at h
    rcases h with h | h | h
    · simp at h
    · have := (checkDirs_spec W s1).1 _ h
      simp [Event.isDirCheck] at this
    · have := (connect_spec W fl _).1 _ h
      simp [Event.isConnect] at this
  · intro files s1 hg hrun hlen hurl hd hc _
    exact ⟨files, s1, hg, hrun, hlen, hurl, hd, hc, rfl⟩

/-- The trace of a run that passes the set-up. -/
theorem main_run (W : World σ) (fl : Flags) (s : σ) (files : List String) (s1 : σ)
    (hg : W.Glob ("*" ++ fl.extension) s = (Res.ok files, s1)) (hrun : fl.run = true)
    (hlen : files.length ≠ 0) (hurl : fl.url ≠ "") (hd : (checkDirs W s1).1 = true)
    (hc : (connect W fl (checkDirs W s1).2.2).1 = true) :
    (main W fl s).trace =
      Event.Glob ("*" ++ fl.extension) (Res.ok files) :: (checkDirs W s1).2.1 ++
        (connect W fl (checkDirs W s1).2.2).2.1 ++
        (upload W fl files (connect W fl (checkDirs W s1).2.2).2.2).1 := by
  refine main_elim W fl s
    (fun r => r.trace =
      Event.Glob ("*" ++ fl.extension) (Res.ok files) :: (checkDirs W s1).2.1 ++
        (connect W fl (checkDirs W s1).2.2).2.1 ++
        (upload W fl files (connect W fl (checkDirs W s1).2.2).2.2).1) ?_ ?_ ?_ ?_ ?_ ?_ ?_
  · intro e s2 h; rw [hg] at h; simp at h
  · intro _ _ _ h; rw [hrun] at h; simp at h
  · intro files2 s2 h _ hl
    rw [hg] at h
    simp only [Prod.mk.injEq, Res.ok.injEq] at h
    rw [← h.1] at hl
    exact absurd hl hlen
  · intro _ _ _ _ _ h; exact absurd h hurl
  · intro files2 s2 h _ _ _ hd2
    rw [hg] at h
    simp only [Prod.mk.injEq, Res.ok.injEq] at h
    rw [← h.2, hd] at hd2
    simp at hd2
  · intro files2 s2 h _ _ _ _ hc2
    rw [hg] at h
    simp only [Prod.mk.injEq, Res.ok.injEq] at h
    rw [← h.2, hc] at hc2
    simp at hc2
  · intro files2 s2 h _ _ _ _ _
    rw [hg] at h
    simp only [Prod.mk.injEq, Res.ok.injEq] at h
    obtain ⟨h1, h2⟩ := h
    subst h1 h2
    rfl

theorem flags_of_isSetup (e : Event) (h : e.isSetup = true) :
    e.isMove = false ∧ e.isFailedMove = false ∧ e.isEdit = false ∧ e.isEditOk = false ∧
    e ≠ Event.Logout := by
  cases e <;> simp_all [Event.isSetup, Event.isMove, Event.isFailedMove, Event.isEdit,
    Event.isEditOk]

/-- In a full run a count of events that are neither set-up events nor
`Logout` is the count over the loop. -/
theorem countP_full (p : Event → Bool) (setup a b tr sm : List Event)
    (hs : ∀ e ∈ setup, p e = false) (ha : ∀ e ∈ a, p e = false)
    (hsm : ∀ e ∈ sm, p e = false) (hb : ∀ e ∈ b, p e = false) :
    (setup ++ a ++ tr ++ sm ++ b).countP p = tr.countP p := by
  simp only [List.countP_append, countP_eq_zero_of_all_false p setup hs,
    countP_eq_zero_of_all_false p a ha, countP_eq_zero_of_all_false p sm hsm,
    countP_eq_zero_of_all_false p b hb]
  omega

/-- C8: take a completed run, and the same run in a world whose moves answer
differently (every other operation, and the state a move leaves, unchanged).
The second run completes too, with the same total and the same uploaded,
duplicate, skipped and error counters. The move-error counter is the number of
failed moves in the trace, the number of attempted moves is uploaded +
duplicate + skipped, so the move-error counter is at most that sum; and an
iteration that counts an error attempts no move and counts no move error. -/
theorem failed_move_keeps_outcome (W : World σ)
    (r : String → String → String → σ → Option Error × σ)
    (hr : ∀ a b d s0, (r a b d s0).2 = (W.Rename a b d s0).2)
    (fl : Flags) (s : σ) (pre : List Event) (total : Nat) (c : Counters)
    (h : (main W fl s).trace = pre ++ summary total c ++ [Event.Logout]) :
    (∃ pre2 c2, (main (withRename W r) fl s).trace = pre2 ++ summary total c2 ++ [Event.Logout] ∧
      SameOutcome c c2) ∧
    c.moveErrCount = (main W fl s).trace.countP Event.isFailedMove ∧
    c.doneCount + c.dupeCount + c.skipCount = (main W fl s).trace.countP Event.isMove ∧
    c.moveErrCount ≤ c.doneCount + c.dupeCount + c.skipCount ∧
    (∀ file c0 s0, (loopBody W fl file c0 s0).1.errCount = c0.errCount + 1 →
      (loopBody W fl file c0 s0).1.moveErrCount = c0.moveErrCount ∧
      (loopBody W fl file c0 s0).2.1.countP Event.isMove = 0) := by
  have hlog : Event.Logout ∈ (main W fl s).trace := by simp [h]
  have hle : ∀ tr : List Event, tr.countP Event.isFailedMove ≤ tr.countP Event.isMove := by
    intro tr
    refine List.countP_mono_left (fun e _ he => ?_)
    cases e <;> simp_all [Event.isFailedMove, Event.isMove]
  -- the counters
  obtain ⟨files, s1, setup, s3, -, -, -, -, hs, -, -, htr⟩ :=
    main_full W fl s (Or.inl ⟨Event.Logout, hlog, rfl⟩)
  have hinj := h
  rw [htr] at hinj
  obtain ⟨hn, hc, -⟩ := summary_inj _ _ _ _ _ _ hinj
  have hF : (main W fl s).trace.countP Event.isFailedMove =
      (loop W fl files ⟨0, 0, 0, 0, 0⟩ s3).2.1.countP Event.isFailedMove := by
    rw [htr]
    exact countP_full _ _ _ _ _ _ (fun e he => (flags_of_isSetup e (hs e he).1).2.1)
      (by simp [Event.isFailedMove])
      (fun e he => (flags_of_isSetup e (summary_events _ _ e he).1).2.1)
      (by simp [Event.isFailedMove])
  have hM : (main W fl s).trace.countP Event.isMove =
      (loop W fl files ⟨0, 0, 0, 0, 0⟩ s3).2.1.countP Event.isMove := by
    rw [htr]
    exact countP_full _ _ _ _ _ _ (fun e he => (flags_of_isSetup e (hs e he).1).1)
      (by simp [Event.isMove])
      (fun e he => (flags_of_isSetup e (summary_events _ _ e he).1).1)
      (by simp [Event.isMove])
  have h1 := loop_moveErr W fl files ⟨0, 0, 0, 0, 0⟩ s3
  have h2 := loop_countMove W fl files ⟨0, 0, 0, 0, 0⟩ s3
  have h3 := hle (loop W fl files ⟨0, 0, 0, 0, 0⟩ s3).2.1
  simp only [Nat.zero_add] at h1 h2
  rw [hc] at h1 h2
  refine ⟨?_, by rw [hF]; exact h1, by rw [hM]; exact h2, by omega, ?_⟩
  · -- the run in the other world
    obtain ⟨files2, s2, hg, hrun, hlen, hurl, hd, hcn, htr2⟩ := main_run_inv W fl s hlog
    have hinj2 := h
    rw [htr2, upload_trace] at hinj2
    simp only [← List.append_assoc] at hinj2
    obtain ⟨hn2, hc2, -⟩ := summary_inj _ _ _ _ _ _ hinj2
    have hrun2 := main_run (withRename W r) fl s files2 s2 hg hrun hlen hurl hd hcn
    rw [upload_trace] at hrun2
    simp only [← List.append_assoc] at hrun2
    have hsame := (loop_indep W r hr fl files2 ⟨0, 0, 0, 0, 0⟩ ⟨0, 0, 0, 0, 0⟩
      (connect W fl (checkDirs W s2).2.2).2.2 ⟨rfl, rfl, rfl, rfl⟩).1
    rw [hc2] at hsame
    rw [hn2] at hrun2
    exact ⟨_, _, hrun2, hsame⟩
  · intro file c0 s0 herr
    have ha := loopBody_incrementsOne W fl file c0 s0
    have hb := loopBody_countMove W fl file c0 s0
    have hcm := loopBody_moveErr W fl file c0 s0
    have hd := hle (loopBody W fl file c0 s0).2.1
    unfold IncrementsOne at ha
    omega

/-- C8 at the scenario of the specification: with every move refused instead
of accepted the run still reports one upload and one skipped file. -/
theorem failed_move_keeps_outcome_witness :
    (main (scriptWorld scenario) runFlags ()).trace =
      (main (scriptWorld scenario) runFlags ()).trace.take 33 ++ summary 2 ⟨1, 0, 1, 0, 0⟩ ++
        [Event.Logout] ∧
    ∃ pre2 c2, (main (withRename (scriptWorld scenario)
        (fun _ _ _ s0 => (some (Error.other "rename: permission denied"), s0))) runFlags ()).trace =
        pre2 ++ summary 2 c2 ++ [Event.Logout] ∧ SameOutcome ⟨1, 0, 1, 0, 0⟩ c2 :=
  ⟨by decide, (failed_move_keeps_outcome (scriptWorld scenario)
    (fun _ _ _ s0 => (some (Error.other "rename: permission denied"), s0)) (fun _ _ _ _ => rfl)
    runFlags () ((main (scriptWorld scenario) runFlags ()).trace.take 33) 2 ⟨1, 0, 1, 0, 0⟩
    (by decide)).1⟩

theorem ne_logout_of_isLoopEvent (e : Event) (h : e.isLoopEvent = true) :
    e ≠ Event.Logout ∧ e.isLoginOk = false := by
  cases e <;> simp_all [Event.isLoopEvent, Event.isLoginOk]

/-- C9: when a `Login` succeeded, the run returns normally, `Logout` occurs
exactly once in its trace, and it is the very last event, right after the
lines of the final summary (so it is the last client call, whatever happened
to the files); when no `Login` succeeded (not reached, or failed), `Logout`
does not occur at all. -/
theorem logout_exactly_once_after_login (W : World σ) (fl : Flags) (s : σ) :
    ((∃ u p, Event.Login u p none ∈ (main W fl s).trace) →
      (main W fl s).exit = Exit.returned ∧
      (main W fl s).trace.count Event.Logout = 1 ∧
      ∃ pre total c, (main W fl s).trace = pre ++ summary total c ++ [Event.Logout] ∧
        Event.Logout ∉ pre) ∧
    ((¬ ∃ u p, Event.Login u p none ∈ (main W fl s).trace) →
      Event.Logout ∉ (main W fl s).trace) := by
  constructor
  · rintro ⟨u, p, hmem⟩
    obtain ⟨files, s1, setup, s3, -, -, -, -, hs, -, hex, htr⟩ :=
      main_full W fl s (Or.inr ⟨Event.Login u p none, hmem, rfl⟩)
    have hpre : Event.Logout ∉ setup ++
        [Event.Stdout "%d files will be uploaded.\n" [Arg.int files.length],
         Event.Stdout "This will take at least %s with the current throttle setting.\n"
           [Arg.dur (wrapInt64 (fl.pause * (files.length : Int)))]] ++
        (loop W fl files ⟨0, 0, 0, 0, 0⟩ s3).2.1 := by
      intro hin
      simp only [List.mem_append, List.mem_cons, List.mem_singleton, List.not_mem_nil,
        or_false] at hin
      rcases hin with (hin | hin | hin) | hin
      · exact (flags_of_isSetup _ (hs _ hin).1).2.2.2.2 rfl
      · simp at hin
      · simp at hin
      · exact (ne_logout_of_isLoopEvent _ (loop_events W fl files _ _ _ hin)).1 rfl
    have hsum : Event.Logout ∉ summary files.length (loop W fl files ⟨0, 0, 0, 0, 0⟩ s3).1 :=
      fun hin => (flags_of_isSetup _ (summary_events _ _ _ hin).1).2.2.2.2 rfl
    refine ⟨hex, ?_, _, _, _, htr, hpre⟩
    rw [htr]
    simp only [List.count_append, List.count_eq_zero_of_not_mem hpre,
      List.count_eq_zero_of_not_mem hsum]
    simp
  · intro hno hin
    obtain ⟨files, s1, setup, s3, -, -, -, -, -, ⟨u, p, hl⟩, -, htr⟩ :=
      main_full W fl s (Or.inl ⟨Event.Logout, hin, rfl⟩)
    exact hno ⟨u, p, by rw [htr]; simp [hl]⟩

/-- C9 at the scenario of the specification: with a successful login `Logout`
occurs once; with a refused login it does not occur. -/
theorem logout_exactly_once_after_login_witness :
    (main (scriptWorld scenario) runFlags ()).trace.count Event.Logout = 1 ∧
    Event.Logout ∉ (main (scriptWorld badLogin) runFlags ()).trace :=
  ⟨((logout_exactly_once_after_login (scriptWorld scenario) runFlags ()).1
      ⟨"wiki", "wiki", by decide⟩).2.1,
   (logout_exactly_once_after_login (scriptWorld badLogin) runFlags ()).2 (by
      rintro ⟨u, p, h⟩
      have hall : (main (scriptWorld badLogin) runFlags ()).trace.all
          (fun e => !e.isLoginOk) = true := by decide
      have := List.all_eq_true.mp hall _ h
      simp [Event.isLoginOk] at this)⟩

theorem loopBody_edits_inv (W : World σ) (fl : Flags) (file : String) (c : Counters) (s : σ)
    (h : edits (loopBody W fl file c s).2.1 ≠ []) :
    ∃ content s1 s3, W.ReadFile file s = (Res.ok content, s1) ∧
      W.Read (TrimSuffix file fl.extension) (W.Sleep fl.pause s1) = (Res.ok ⟨[]⟩, s3) := by
  revert h
  refine loopBody_elim W fl file c s
    (fun r => edits r.2.1 ≠ [] → ∃ content s1 s3, W.ReadFile file s = (Res.ok content, s1) ∧
      W.Read (TrimSuffix file fl.extension) (W.Sleep fl.pause s1) = (Res.ok ⟨[]⟩, s3))
    ?_ ?_ ?_ ?_ ?_ ?_
  · intro _ _ _ h; simp [edits] at h
  · intro _ _ _ _ _ _ h; simp [edits] at h
  · intro content s1 s3 _ _ h1 h2 _ _; exact ⟨content, s1, s3, h1, h2⟩
  · intro content s1 s3 _ h1 h2 _ _; exact ⟨content, s1, s3, h1, h2⟩
  · intro _ _ _ _ s3 _ _ _ h
    rw [edits_append, moveFile_edits] at h
    simp [edits] at h
  · intro _ _ _ _ s3 _ _ _ h
    rw [edits_append, moveFile_edits] at h
    simp [edits] at h

/-- C10: the tool never overwrites a page. In every run each `Edit` in the
trace comes right after a successful `Read` of the same title that returned a
page without revisions. One loop iteration issues at most one `Edit`, and
issues one only if the local read succeeded and the fetch succeeded with zero
revisions (so none after a failed read, a failed fetch, or a page with a
revision). In a completed run the uploaded counter is the number of
successful `Edit` calls. -/
theorem edit_only_after_empty_read (W : World σ) (fl : Flags) (s : σ) :
    EditsFollowEmptyRead (main W fl s).trace ∧
    (∀ file c0 s0, (loopBody W fl file c0 s0).2.1.countP Event.isEdit ≤ 1 ∧
      (edits (loopBody W fl file c0 s0).2.1 ≠ [] →
        ∃ content s1 s3, W.ReadFile file s0 = (Res.ok content, s1) ∧
          W.Read (TrimSuffix file fl.extension) (W.Sleep fl.pause s1) = (Res.ok ⟨[]⟩, s3))) ∧
    (∀ pre total c, (main W fl s).trace = pre ++ summary total c ++ [Event.Logout] →
      c.doneCount = (main W fl s).trace.countP Event.isEditOk) := by
  refine ⟨?_, fun file c0 s0 => ⟨(loopBody_countEdit W fl file c0 s0).2,
    loopBody_edits_inv W fl file c0 s0⟩, ?_⟩
  · rcases main_shape W fl s with hA | ⟨files, s1, setup, s3, -, -, -, -, hs, -, htr, -⟩
    · refine editsFollow_of_no_edit _ (fun e he => ?_)
      exact (flags_of_isSetup e (hA e he).1).2.2.1
    · rw [htr, upload_trace]
      refine editsFollow_append _ _
        (editsFollow_of_no_edit _ (fun e he => (flags_of_isSetup e (hs e he).1).2.2.1)) ?_
      refine editsFollow_append _ _ (editsFollow_append _ _ (editsFollow_append _ _
        (editsFollow_of_no_edit _ (by simp [Event.isEdit])) (loop_editsFollow W fl files _ _))
        (editsFollow_of_no_edit _ (fun e he =>
          (flags_of_isSetup e (summary_events _ _ e he).1).2.2.1)))
        (editsFollow_of_no_edit _ (by simp [Event.isEdit]))
  · intro pre total c h
    obtain ⟨files, s1, setup, s3, -, -, -, -, hs, -, -, htr⟩ :=
      main_full W fl s (Or.inl ⟨Event.Logout, by simp [h], rfl⟩)
    have hinj := h
    rw [htr] at hinj
    obtain ⟨-, hc, -⟩ := summary_inj _ _ _ _ _ _ hinj
    have hE : (main W fl s).trace.countP Event.isEditOk =
        (loop W fl files ⟨0, 0, 0, 0, 0⟩ s3).2.1.countP Event.isEditOk := by
      rw [htr]
      exact countP_full _ _ _ _ _ _ (fun e he => (flags_of_isSetup e (hs e he).1).2.2.2.1)
        (by simp [Event.isEditOk])
        (fun e he => (flags_of_isSetup e (summary_events _ _ e he).1).2.2.2.1)
        (by simp [Event.isEditOk])
    have h1 := (loop_countEdit W fl files ⟨0, 0, 0, 0, 0⟩ s3).1
    rw [hc] at h1
    rw [hE, h1]
    simp

/-- C10 at the scenario of the specification: one page is created, and the
summary reports one upload. -/
theorem edit_only_after_empty_read_witness :
    (main (scriptWorld scenario) runFlags ()).trace.countP Event.isEditOk = 1 ∧
    EditsFollowEmptyRead (main (scriptWorld scenario) runFlags ()).trace :=
  ⟨((edit_only_after_empty_read (scriptWorld scenario) runFlags ()).2.2
      ((main (scriptWorld scenario) runFlags ()).trace.take 33) 2 ⟨1, 0, 1, 0, 0⟩
      (by decide)).symm,
   (edit_only_after_empty_read (scriptWorld scenario) runFlags ()).1⟩

end Claims

end Wikipush
